import Mathlib

/-!
Verification development for the serval-run-v2 asynchronous test-execution
subsystem: the `TestJob` data model, the two job-queue backends
(`src/queue/memory_queue.rs`, `src/queue/redis_queue.rs`), the Gherkin cell
parser (`src/services/gherkin.rs`), the test runner's placeholder
substitution, JSON containment check and response validation
(`src/services/test_runner.rs`), and the worker executor
(`src/worker/executor.rs`, `src/worker/main.rs`).

Modelling conventions:
- `Uuid` values are modelled as `Nat` identifiers.
- `time::OffsetDateTime` timestamps are modelled as `Nat`; operations that
  read the current clock take an explicit `now : Nat` argument.
- `HashMap`/the Redis key space are modelled as association lists; iteration
  order of a hash map (unspecified in the source) is the list order.
- Fallible operations return `Except AppError`.
-/

namespace ServalRun

/-- Error type: the constructors of `AppError` that the queue code uses. -/
inductive AppError where
  | notFound (what : String)
  | validation (msg : String)
  | internal (msg : String)
  deriving Repr, DecidableEq

/-- `JobStatus` enum from `src/queue/job.rs`. -/
inductive JobStatus where
  | pending
  | running
  | completed
  | failed
  | dead
  | cancelled
  deriving Repr, DecidableEq

namespace JobStatus

/-- `JobStatus::is_terminal` from `src/queue/job.rs`. -/
def is_terminal : JobStatus → Bool
  | completed => true
  | dead => true
  | cancelled => true
  | _ => false

end JobStatus

/-- `TestJobType` enum from `src/queue/job.rs`. -/
inductive TestJobType where
  | scenario
  | api
  | collection
  deriving Repr, DecidableEq

/-- `TestJobConfig` from `src/queue/job.rs`. -/
structure TestJobConfig where
  timeout_seconds : Nat
  auth_token : Option String
  custom_headers : List (String × String)
  deriving Repr, DecidableEq

/-- `TestJobConfig::default` from `src/queue/job.rs`. -/
def TestJobConfig.default : TestJobConfig :=
  { timeout_seconds := 30, auth_token := none, custom_headers := [] }

/-- `TestJob` struct from `src/queue/job.rs`. -/
structure TestJob where
  id : Nat
  job_type : TestJobType
  target_id : Nat
  environment_id : Nat
  user_id : Nat
  status : JobStatus
  config : TestJobConfig
  retry_count : Nat
  max_retries : Nat
  created_at : Nat
  started_at : Option Nat
  completed_at : Option Nat
  error_message : Option String
  report_id : Option Nat
  deriving Repr, DecidableEq

/-- `TestJob::new` from `src/queue/job.rs`; the freshly drawn `Uuid::new_v4()`
and the `OffsetDateTime::now_utc()` reading are explicit arguments. -/
def TestJob.new (fresh_id : Nat) (job_type : TestJobType)
    (target_id environment_id user_id : Nat) (config : TestJobConfig)
    (created : Nat) : TestJob :=
  { id := fresh_id
    job_type := job_type
    target_id := target_id
    environment_id := environment_id
    user_id := user_id
    status := .pending
    config := config
    retry_count := 0
    max_retries := 3
    created_at := created
    started_at := none
    completed_at := none
    error_message := none
    report_id := none }

/-- `JobResult` struct from `src/queue/job.rs` (summary statistics are kept;
`pass_rate: f64` is modelled as a rational). -/
structure JobResult where
  report_id : Nat
  total_tests : Nat
  passed : Nat
  failed : Nat
  pass_rate : Rat
  total_duration_ms : Int
  deriving Repr, DecidableEq

/-- Association-list lookup standing for `HashMap::get` / a Redis `GET`. -/
def lookupJob (jobs : List (Nat × TestJob)) (id : Nat) : Option TestJob :=
  match jobs with
  | [] => none
  | (k, j) :: rest => if k = id then some j else lookupJob rest id

/-- Association-list update standing for in-place `get_mut` mutation /
a Redis `SET` of an existing job record. -/
def setJob (jobs : List (Nat × TestJob)) (id : Nat) (j : TestJob) :
    List (Nat × TestJob) :=
  match jobs with
  | [] => [(id, j)]
  | (k, j0) :: rest =>
      if k = id then (k, j) :: rest else (k, j0) :: setJob rest id j

/-- State of `InMemoryQueueInner` from `src/queue/memory_queue.rs`:
a FIFO of job ids plus the job table. -/
structure InMemoryQueueInner where
  queue : List Nat
  jobs : List (Nat × TestJob)
  deriving Repr, DecidableEq

namespace InMemoryQueue

/-- `InMemoryQueue::new`. -/
def new : InMemoryQueueInner := { queue := [], jobs := [] }

/-- `InMemoryQueue::enqueue`: stores the job keyed by its id and appends the
id to the FIFO. -/
def enqueue (s : InMemoryQueueInner) (job : TestJob) :
    InMemoryQueueInner × Nat :=
  ({ queue := s.queue ++ [job.id], jobs := setJob s.jobs job.id job }, job.id)

/-- `InMemoryQueue::dequeue`, first (immediate) attempt: pops the front id,
marks the job Running and stamps `started_at`.  The notification wait is
timing behaviour outside the model; an empty queue yields `none`. -/
def dequeue (s : InMemoryQueueInner) (now : Nat) :
    InMemoryQueueInner × Option TestJob :=
  match s.queue with
  | [] => (s, none)
  | job_id :: rest =>
      match lookupJob s.jobs job_id with
      | some job =>
          let job' := { job with status := .running, started_at := some now }
          ({ queue := rest, jobs := setJob s.jobs job_id job' }, some job')
      | none => ({ s with queue := rest }, none)

/-- `InMemoryQueue::get_job`. -/
def get_job (s : InMemoryQueueInner) (job_id : Nat) : Option TestJob :=
  lookupJob s.jobs job_id

/-- `InMemoryQueue::update_status`: sets the status unconditionally and
stamps `completed_at` when the new status is terminal. -/
def update_status (s : InMemoryQueueInner) (job_id : Nat) (status : JobStatus)
    (now : Nat) : Except AppError InMemoryQueueInner :=
  match lookupJob s.jobs job_id with
  | none => .error (.notFound "Job")
  | some job =>
      let job' := { job with
        status := status
        completed_at := if status.is_terminal then some now else job.completed_at }
      .ok { s with jobs := setJob s.jobs job_id job' }

/-- `InMemoryQueue::complete_job`. -/
def complete_job (s : InMemoryQueueInner) (job_id : Nat) (result : JobResult)
    (now : Nat) : Except AppError InMemoryQueueInner :=
  match lookupJob s.jobs job_id with
  | none => .error (.notFound "Job")
  | some job =>
      let job' := { job with
        status := .completed
        completed_at := some now
        report_id := some result.report_id }
      .ok { s with jobs := setJob s.jobs job_id job' }

/-- `InMemoryQueue::fail_job` (`src/queue/memory_queue.rs:114-131`). -/
def fail_job (s : InMemoryQueueInner) (job_id : Nat) (error : String)
    (retryable : Bool) (now : Nat) : Except AppError InMemoryQueueInner :=
  match lookupJob s.jobs job_id with
  | none => .error (.notFound "Job")
  | some job =>
      let job0 := { job with error_message := some error }
      let job' :=
        if retryable && decide (job0.retry_count < job0.max_retries) then
          { job0 with retry_count := job0.retry_count + 1, status := .failed }
        else
          { job0 with status := .dead, completed_at := some now }
      .ok { s with jobs := setJob s.jobs job_id job' }

/-- `InMemoryQueue::queue_length`. -/
def queue_length (s : InMemoryQueueInner) : Nat := s.queue.length

/-- Stable insertion for the stable `sort_by(|a, b| b.created_at.cmp(&a.created_at))`
(descending by `created_at`, ties keep the original order). -/
def insertByCreatedDesc (j : TestJob) : List TestJob → List TestJob
  | [] => [j]
  | k :: rest =>
      if k.created_at ≤ j.created_at then j :: k :: rest
      else k :: insertByCreatedDesc j rest

/-- Stable sort descending by `created_at`. -/
def sortByCreatedDesc : List TestJob → List TestJob
  | [] => []
  | j :: rest => insertByCreatedDesc j (sortByCreatedDesc rest)

/-- `InMemoryQueue::list_jobs_by_user` (`src/queue/memory_queue.rs:138-151`):
filters the table's values by owner, sorts by creation time descending, then
takes `limit`. -/
def list_jobs_by_user (s : InMemoryQueueInner) (user_id : Nat) (limit : Nat) :
    List TestJob :=
  (sortByCreatedDesc ((s.jobs.map Prod.snd).filter
    (fun j => decide (j.user_id = user_id)))).take limit

/-- `InMemoryQueue::requeue` (`src/queue/memory_queue.rs:153-173`). -/
def requeue (s : InMemoryQueueInner) (job_id : Nat) :
    Except AppError InMemoryQueueInner :=
  match lookupJob s.jobs job_id with
  | none => .error (.notFound "Job")
  | some job =>
      if job.status ≠ JobStatus.failed then
        .error (.validation "Only failed jobs can be requeued")
      else
        let job' := { job with
          status := .pending, started_at := none, error_message := none }
        .ok { queue := s.queue ++ [job_id], jobs := setJob s.jobs job_id job' }

/-- `InMemoryQueue::delete_job`. -/
def delete_job (s : InMemoryQueueInner) (job_id : Nat) :
    Except AppError InMemoryQueueInner :=
  match lookupJob s.jobs job_id with
  | none => .error (.notFound "Job")
  | some _ =>
      .ok { s with jobs := s.jobs.filter (fun p => decide (p.1 ≠ job_id)) }

/-- `InMemoryQueue::cancel_job`. -/
def cancel_job (s : InMemoryQueueInner) (job_id : Nat) (now : Nat) :
    Except AppError InMemoryQueueInner :=
  match lookupJob s.jobs job_id with
  | none => .error (.notFound "Job")
  | some job =>
      if job.status.is_terminal then
        .error (.validation "Cannot cancel a completed job")
      else
        let job' := { job with status := .cancelled, completed_at := some now }
        .ok { s with jobs := setJob s.jobs job_id job' }

end InMemoryQueue

/-- State of the Redis key space used by `src/queue/redis_queue.rs`:
`serval:jobs:queue` (a FIFO list), `serval:jobs:{id}` (job records), and
`serval:jobs:by_user:{uid}` (one id set per user).  A Redis set has no
specified member order; the model keeps each set as a list whose order
stands for the unspecified `SMEMBERS` iteration order. -/
structure RedisState where
  queue : List Nat
  jobs : List (Nat × TestJob)
  by_user : List (Nat × List Nat)
  deriving Repr, DecidableEq

/-- Lookup of a per-user id set (`SMEMBERS serval:jobs:by_user:{uid}`). -/
def lookupUserSet (sets : List (Nat × List Nat)) (uid : Nat) : List Nat :=
  match sets with
  | [] => []
  | (k, ids) :: rest => if k = uid then ids else lookupUserSet rest uid

/-- `SADD serval:jobs:by_user:{uid} id`: adds the id if not already present. -/
def saddUserSet (sets : List (Nat × List Nat)) (uid : Nat) (id : Nat) :
    List (Nat × List Nat) :=
  match sets with
  | [] => [(uid, [id])]
  | (k, ids) :: rest =>
      if k = uid then (k, if id ∈ ids then ids else ids ++ [id]) :: rest
      else (k, ids) :: saddUserSet rest uid id

namespace RedisQueue

/-- `RedisQueue::save_job`: `SET serval:jobs:{id}` with the serialized job. -/
def save_job (s : RedisState) (job : TestJob) : RedisState :=
  { s with jobs := setJob s.jobs job.id job }

/-- `RedisQueue::get_job`. -/
def get_job (s : RedisState) (job_id : Nat) : Option TestJob :=
  lookupJob s.jobs job_id

/-- `RedisQueue::enqueue`: saves the job, `RPUSH`es its id onto the FIFO and
`SADD`s it into the owner's set. -/
def enqueue (s : RedisState) (job : TestJob) : RedisState × Nat :=
  let s1 := save_job s job
  ({ s1 with
      queue := s1.queue ++ [job.id]
      by_user := saddUserSet s1.by_user job.user_id job.id }, job.id)

/-- `RedisQueue::dequeue`: `BLPOP` then mark Running and stamp `started_at`.
The blocking timeout is timing behaviour outside the model; an empty FIFO
yields `none`. -/
def dequeue (s : RedisState) (now : Nat) : RedisState × Option TestJob :=
  match s.queue with
  | [] => (s, none)
  | job_id :: rest =>
      let s1 := { s with queue := rest }
      match get_job s1 job_id with
      | some job =>
          let job' := { job with status := .running, started_at := some now }
          (save_job s1 job', some job')
      | none => (s1, none)

/-- `RedisQueue::update_status` (`src/queue/redis_queue.rs:123-140`). -/
def update_status (s : RedisState) (job_id : Nat) (status : JobStatus)
    (now : Nat) : Except AppError RedisState :=
  match get_job s job_id with
  | none => .error (.notFound "Job")
  | some job =>
      let job' := { job with
        status := status
        completed_at := if status.is_terminal then some now else job.completed_at }
      .ok (save_job s job')

/-- `RedisQueue::complete_job`. -/
def complete_job (s : RedisState) (job_id : Nat) (result : JobResult)
    (now : Nat) : Except AppError RedisState :=
  match get_job s job_id with
  | none => .error (.notFound "Job")
  | some job =>
      let job' := { job with
        status := .completed
        completed_at := some now
        report_id := some result.report_id }
      .ok (save_job s job')

/-- `RedisQueue::fail_job` (`src/queue/redis_queue.rs:165-193`). -/
def fail_job (s : RedisState) (job_id : Nat) (error : String)
    (retryable : Bool) (now : Nat) : Except AppError RedisState :=
  match get_job s job_id with
  | none => .error (.notFound "Job")
  | some job =>
      let job0 := { job with error_message := some error }
      let job' :=
        if retryable && decide (job0.retry_count < job0.max_retries) then
          { job0 with retry_count := job0.retry_count + 1, status := .failed }
        else
          { job0 with status := .dead, completed_at := some now }
      .ok (save_job s job')

/-- `RedisQueue::queue_length`. -/
def queue_length (s : RedisState) : Nat := s.queue.length

/-- `RedisQueue::list_jobs_by_user` (`src/queue/redis_queue.rs:204-225`):
takes `limit` ids from the user's set (in its unspecified `SMEMBERS` order),
fetches those job records, and only then sorts by creation time descending. -/
def list_jobs_by_user (s : RedisState) (user_id : Nat) (limit : Nat) :
    List TestJob :=
  InMemoryQueue.sortByCreatedDesc
    (((lookupUserSet s.by_user user_id).take limit).filterMap
      (fun id => get_job s id))

/-- `RedisQueue::requeue` (`src/queue/redis_queue.rs:227-256`). -/
def requeue (s : RedisState) (job_id : Nat) : Except AppError RedisState :=
  match get_job s job_id with
  | none => .error (.notFound "Job")
  | some job =>
      if job.status ≠ JobStatus.failed then
        .error (.validation "Only failed jobs can be requeued")
      else
        let job' := { job with
          status := .pending, started_at := none, error_message := none }
        let s1 := save_job s job'
        .ok { s1 with queue := s1.queue ++ [job_id] }

/-- `RedisQueue::delete_job`: `SREM` from the owner's set, `DEL` the record. -/
def delete_job (s : RedisState) (job_id : Nat) : Except AppError RedisState :=
  match get_job s job_id with
  | none => .error (.notFound "Job")
  | some job =>
      .ok { s with
        jobs := s.jobs.filter (fun p => decide (p.1 ≠ job_id))
        by_user := s.by_user.map (fun p =>
          if p.1 = job.user_id then (p.1, p.2.filter (fun i => decide (i ≠ job_id)))
          else p) }

/-- `RedisQueue::cancel_job`. -/
def cancel_job (s : RedisState) (job_id : Nat) (now : Nat) :
    Except AppError RedisState :=
  match get_job s job_id with
  | none => .error (.notFound "Job")
  | some job =>
      if job.status.is_terminal then
        .error (.validation "Cannot cancel a completed job")
      else
        let job' := { job with status := .cancelled, completed_at := some now }
        .ok (save_job s job')

end RedisQueue

/-- One queue operation applied to the in-memory backend.  The `enqueue`
constructor carries the arguments of `TestJob::new`, so that every job that
enters the table is one produced by `TestJob::new`. -/
inductive QueueOp where
  | enqueue (fresh_id : Nat) (job_type : TestJobType)
      (target_id environment_id user_id : Nat) (config : TestJobConfig)
      (created : Nat)
  | dequeue (now : Nat)
  | update_status (job_id : Nat) (status : JobStatus) (now : Nat)
  | complete_job (job_id : Nat) (result : JobResult) (now : Nat)
  | fail_job (job_id : Nat) (error : String) (retryable : Bool) (now : Nat)
  | requeue (job_id : Nat)
  | cancel_job (job_id : Nat) (now : Nat)
  | delete_job (job_id : Nat)

/-- A failed queue operation leaves the shared state unchanged (the Rust
methods return the error before any mutation). -/
def orUnchanged (s : InMemoryQueueInner) :
    Except AppError InMemoryQueueInner → InMemoryQueueInner
  | .ok s' => s'
  | .error _ => s

/-- Resulting state of one in-memory queue operation. -/
def applyOp (s : InMemoryQueueInner) : QueueOp → InMemoryQueueInner
  | .enqueue fid jt t e u cfg c =>
      (InMemoryQueue.enqueue s (TestJob.new fid jt t e u cfg c)).1
  | .dequeue now => (InMemoryQueue.dequeue s now).1
  | .update_status id st now => orUnchanged s (InMemoryQueue.update_status s id st now)
  | .complete_job id r now => orUnchanged s (InMemoryQueue.complete_job s id r now)
  | .fail_job id err retryable now =>
      orUnchanged s (InMemoryQueue.fail_job s id err retryable now)
  | .requeue id => orUnchanged s (InMemoryQueue.requeue s id)
  | .cancel_job id now => orUnchanged s (InMemoryQueue.cancel_job s id now)
  | .delete_job id => orUnchanged s (InMemoryQueue.delete_job s id)

/-- Run a sequence of queue operations from the empty queue. -/
def runOps (ops : List QueueOp) : InMemoryQueueInner :=
  ops.foldl applyOp InMemoryQueue.new

/-- Descending order by `created_at` over adjacent elements. -/
def SortedByCreatedDesc (l : List TestJob) : Prop :=
  List.Chain' (fun a b => b.created_at ≤ a.created_at) l

/-- Every job stored in the table respects `retry_count ≤ max_retries`. -/
def RetryBoundedJobs (jobs : List (Nat × TestJob)) : Prop :=
  ∀ p ∈ jobs, p.2.retry_count ≤ p.2.max_retries

/-- A sample job as produced by `TestJob::new`. -/
def sampleJob : TestJob :=
  TestJob.new 7 .scenario 1 2 3 TestJobConfig.default 0

/-- A queue state holding `sampleJob` under its id. -/
def sampleMemState : InMemoryQueueInner :=
  { queue := [], jobs := [(7, sampleJob)] }

/-- A Redis queue state holding `sampleJob` under its id. -/
def sampleRedisState : RedisState :=
  { queue := [], jobs := [(7, sampleJob)], by_user := [(3, [7])] }

/-- `sampleJob` after a run that failed: status Failed. -/
def sampleFailedJob : TestJob :=
  { sampleJob with
      status := .failed
      started_at := some 1
      error_message := some "boom" }

/-- A queue state holding a Failed job. -/
def sampleFailedMemState : InMemoryQueueInner :=
  { queue := [], jobs := [(7, sampleFailedJob)] }

/-- A Redis state holding a Failed job. -/
def sampleFailedRedisState : RedisState :=
  { queue := [], jobs := [(7, sampleFailedJob)], by_user := [(3, [7])] }

/-- A job whose retry budget is exhausted (`retry_count = max_retries`). -/
def sampleExhaustedJob : TestJob :=
  { sampleJob with status := .running, retry_count := 3 }

/-- A queue state holding the exhausted job. -/
def sampleExhaustedMemState : InMemoryQueueInner :=
  { queue := [], jobs := [(7, sampleExhaustedJob)] }

/-- A job in a terminal state (Completed). -/
def sampleCompletedJob : TestJob :=
  { sampleJob with status := .completed, completed_at := some 4 }

/-- A queue state holding only a terminal (Completed) job. -/
def terminalMemState : InMemoryQueueInner :=
  { queue := [], jobs := [(7, sampleCompletedJob)] }

/-- A Redis state holding only a terminal (Completed) job. -/
def terminalRedisState : RedisState :=
  { queue := [], jobs := [(7, sampleCompletedJob)], by_user := [(3, [7])] }

/-- Operation sequence: enqueue a fresh job, then report one retryable failure. -/
def wC2Ops : List QueueOp :=
  [QueueOp.enqueue 7 .scenario 1 2 3 TestJobConfig.default 0,
   QueueOp.fail_job 7 "e" true 5]

/-- The job stored after running `wC2Ops`. -/
def wC2Job : TestJob :=
  { sampleJob with status := .failed, retry_count := 1, error_message := some "e" }

/-- Older job of user 1 (created at 10), listed first in the user's id set. -/
def cexJobOld : TestJob := TestJob.new 2 .scenario 0 0 1 TestJobConfig.default 10

/-- Newer job of user 1 (created at 20), listed second in the user's id set. -/
def cexJobNew : TestJob := TestJob.new 3 .scenario 0 0 1 TestJobConfig.default 20

/-- In-memory state with the two jobs of user 1. -/
def cexMemState : InMemoryQueueInner :=
  { queue := [], jobs := [(2, cexJobOld), (3, cexJobNew)] }

/-- Redis state with the same stored job set; the user's id set happens to
list the older job first (Redis set order is unspecified). -/
def cexRedisState : RedisState :=
  { queue := [], jobs := [(2, cexJobOld), (3, cexJobNew)],
    by_user := [(1, [2, 3])] }

/-! ### JSON values (`serde_json::Value`)

Numbers: serde_json distinguishes integer numbers (i64/u64) from floating
ones (f64); the model keeps that distinction as `numI`/`numF`.  Floats are
modelled as exact rationals: IEEE-754 rounding is outside the model, and
non-finite floats never reach a `Json` value (serde's `Number::from_f64`
rejects them). -/

inductive Json where
  | null
  | bool (b : Bool)
  | numI (n : Int)
  | numF (q : Rat)
  | str (s : String)
  | arr (elems : List Json)
  | obj (fields : List (String × Json))

mutual

/-- `PartialEq` on `serde_json::Value`: structural equality; an integer and
a float number are never equal (distinct `Number` variants). -/
def beqJson : Json → Json → Bool
  | .null, .null => true
  | .bool a, .bool b => a == b
  | .numI a, .numI b => a == b
  | .numF a, .numF b => a == b
  | .str a, .str b => a == b
  | .arr a, .arr b => beqJsonList a b
  | .obj a, .obj b => beqJsonFields a b
  | _, _ => false

/-- Element-wise equality of JSON arrays. -/
def beqJsonList : List Json → List Json → Bool
  | [], [] => true
  | a :: as0, b :: bs0 => beqJson a b && beqJsonList as0 bs0
  | _, _ => false

/-- Entry-wise equality of JSON objects. -/
def beqJsonFields : List (String × Json) → List (String × Json) → Bool
  | [], [] => true
  | (k1, v1) :: as0, (k2, v2) :: bs0 =>
      k1 == k2 && beqJson v1 v2 && beqJsonFields as0 bs0
  | _, _ => false

end

/-- `serde_json::Map::get` (keys of a parsed map are unique). -/
def lookupField (fields : List (String × Json)) (k : String) : Option Json :=
  match fields with
  | [] => none
  | (k0, v) :: rest => if k0 = k then some v else lookupField rest k

/-! ### Character-list utilities for `str` methods -/

/-- `str::contains` on character lists. -/
def containsSub (s pat : List Char) : Bool :=
  if pat.isPrefixOf s then true
  else
    match s with
    | [] => false
    | _ :: rest => containsSub rest pat

/-- Replacement step of `str::replace` (leftmost, non-overlapping): the fuel
only bounds the recursion, one unit per examined position; `replaceAll`
supplies `s.length`, which always suffices.  An empty pattern never arises
(patterns here are always `<key>`). -/
def replaceAllAux (pat repl : List Char) : Nat → List Char → List Char
  | _, [] => []
  | 0, s => s
  | fuel + 1, c :: rest =>
      if pat ≠ [] ∧ pat.isPrefixOf (c :: rest) then
        repl ++ replaceAllAux pat repl fuel (List.drop pat.length (c :: rest))
      else c :: replaceAllAux pat repl fuel rest

/-- `str::replace(pat, repl)` on character lists. -/
def replaceAll (s pat repl : List Char) : List Char :=
  replaceAllAux pat repl s.length s

/-- ASCII lowercasing, modelling `str::to_lowercase` on the ASCII subset. -/
def toLowerList (s : List Char) : List Char := s.map Char.toLower

/-! ### Serialization (`serde_json::Value::to_string`) -/

/-- One hexadecimal digit (lowercase). -/
def hexDigitChar (n : Nat) : Char :=
  if n < 10 then Char.ofNat (48 + n) else Char.ofNat (87 + n)

/-- serde's string escaping: `"`, `\\`, and control characters. -/
def escapeChars : List Char → List Char
  | [] => []
  | c :: rest =>
      if c = '"' then '\\' :: '"' :: escapeChars rest
      else if c = '\\' then '\\' :: '\\' :: escapeChars rest
      else if c = Char.ofNat 8 then '\\' :: 'b' :: escapeChars rest
      else if c = Char.ofNat 9 then '\\' :: 't' :: escapeChars rest
      else if c = Char.ofNat 10 then '\\' :: 'n' :: escapeChars rest
      else if c = Char.ofNat 12 then '\\' :: 'f' :: escapeChars rest
      else if c = Char.ofNat 13 then '\\' :: 'r' :: escapeChars rest
      else if c.toNat < 32 then
        '\\' :: 'u' :: '0' :: '0' :: hexDigitChar (c.toNat / 16) ::
          hexDigitChar (c.toNat % 16) :: escapeChars rest
      else c :: escapeChars rest

/-- Decimal digits of a natural number. -/
def natToChars (n : Nat) : List Char := (Nat.repr n).data

/-- Decimal representation of an integer. -/
def intToChars (n : Int) : List Char :=
  if n < 0 then '-' :: natToChars n.natAbs else natToChars n.natAbs

/-- Smallest exponent `k ≤ 64` with `den ∣ 10^k` (every rational produced by
the decimal parsers has such a denominator). -/
def pow10Exponent (den : Nat) : Option Nat :=
  (List.range 65).find? (fun k => 10 ^ k % den = 0)

/-- Decimal rendering of a float modelled as an exact rational; integral
values get a trailing `.0` as Rust's float display does.  Rationals with a
non-decimal denominator (unreachable from the parsers) fall back to `num/den`. -/
def ratToChars (q : Rat) : List Char :=
  match pow10Exponent q.den with
  | some 0 => intToChars q.num ++ ('.' :: ['0'])
  | some k =>
      let m := q.num.natAbs * (10 ^ k / q.den)
      let digits := natToChars m
      let digits := if digits.length < k + 1 then
          List.replicate (k + 1 - digits.length) '0' ++ digits else digits
      let intPart := digits.take (digits.length - k)
      let fracPart := digits.drop (digits.length - k)
      (if q.num < 0 then ['-'] else []) ++ intPart ++ '.' :: fracPart
  | none => intToChars q.num ++ '/' :: natToChars q.den

mutual

/-- `serde_json::Value::to_string()` (compact serialization). -/
def jsonToChars : Json → List Char
  | .null => "null".data
  | .bool true => "true".data
  | .bool false => "false".data
  | .numI n => intToChars n
  | .numF q => ratToChars q
  | .str s => '"' :: escapeChars s.data ++ ['"']
  | .arr elems => '[' :: jsonElemsToChars elems ++ [']']
  | .obj fields => '{' :: jsonFieldsToChars fields ++ ['}' ]

/-- Comma-joined serialization of array elements. -/
def jsonElemsToChars : List Json → List Char
  | [] => []
  | [x] => jsonToChars x
  | x :: rest => jsonToChars x ++ ',' :: jsonElemsToChars rest

/-- Comma-joined serialization of object entries. -/
def jsonFieldsToChars : List (String × Json) → List Char
  | [] => []
  | [(k, v)] => '"' :: escapeChars k.data ++ '"' :: ':' :: jsonToChars v
  | (k, v) :: rest =>
      '"' :: escapeChars k.data ++ '"' :: ':' :: jsonToChars v ++
        ',' :: jsonFieldsToChars rest

end

/-! ### Numeric literal parsers (`str::parse::<i64>`, `str::parse::<f64>`)

Floats are parsed to exact rationals; IEEE-754 rounding is outside the
model.  `parseF64` yields `none` exactly when the Rust pipeline yields no
finite float usable by `serde_json::Number::from_f64`: a malformed literal,
an `inf`/`nan` keyword, or overflow beyond the largest finite f64. -/

/-- Value of a digit string (caller guarantees the characters are digits). -/
def digitsNat (ds : List Char) : Nat :=
  ds.foldl (fun a c => a * 10 + (c.toNat - 48)) 0

/-- Digit-string parse: at least one character, all digits. -/
def parseNatDigits (ds : List Char) : Option Nat :=
  if ds.isEmpty then none
  else if ds.all Char.isDigit then some (digitsNat ds) else none

/-- `str::parse::<i64>`: optional sign, digits, i64 range. -/
def parseI64 (s : List Char) : Option Int :=
  let signAndDigits : Bool × List Char :=
    match s with
    | '+' :: rest => (false, rest)
    | '-' :: rest => (true, rest)
    | _ => (false, s)
  match parseNatDigits signAndDigits.2 with
  | none => none
  | some n =>
      let v : Int := if signAndDigits.1 then -(n : Int) else (n : Int)
      if -(2 ^ 63) ≤ v ∧ v < 2 ^ 63 then some v else none

/-- The largest finite `f64`, as a rational. -/
def maxF64Rat : Rat := ((2 ^ 53 - 1) * 2 ^ 971 : Int)

/-- Optional exponent suffix `([eE][+-]?digits)?`; requires that it consumes
the whole remainder. -/
def parseExpOpt (s : List Char) : Option Int :=
  match s with
  | [] => some 0
  | c :: rest =>
      if c = 'e' ∨ c = 'E' then
        let signAndDigits : Bool × List Char :=
          match rest with
          | '+' :: r => (false, r)
          | '-' :: r => (true, r)
          | _ => (false, rest)
        match parseNatDigits signAndDigits.2 with
        | some n => some (if signAndDigits.1 then -(n : Int) else (n : Int))
        | none => none
      else none

/-- Rational value of `intPart . fracDigits × 10^e`. -/
def ratOfParts (intPart : Nat) (fracDigits : List Char) (e : Int) : Rat :=
  ((intPart : Rat) + (digitsNat fracDigits : Rat) / ((10 : Rat) ^ fracDigits.length))
    * (10 : Rat) ^ e

/-- Body of Rust's float grammar:
`Digits '.'? Digits? Exp? | '.' Digits Exp?`. -/
def parseF64Body (s : List Char) : Option Rat :=
  let intDigits := s.takeWhile Char.isDigit
  let rest1 := s.dropWhile Char.isDigit
  if intDigits.isEmpty then
    match rest1 with
    | '.' :: rest2 =>
        let fracDigits := rest2.takeWhile Char.isDigit
        let rest3 := rest2.dropWhile Char.isDigit
        if fracDigits.isEmpty then none
        else
          match parseExpOpt rest3 with
          | some e => some (ratOfParts 0 fracDigits e)
          | none => none
    | _ => none
  else
    match rest1 with
    | '.' :: rest2 =>
        let fracDigits := rest2.takeWhile Char.isDigit
        let rest3 := rest2.dropWhile Char.isDigit
        match parseExpOpt rest3 with
        | some e => some (ratOfParts (digitsNat intDigits) fracDigits e)
        | none => none
    | _ =>
        match parseExpOpt rest1 with
        | some e => some (ratOfParts (digitsNat intDigits) [] e)
        | none => none

/-- `str::parse::<f64>` restricted to finite results (see above). -/
def parseF64 (s : List Char) : Option Rat :=
  let signAndRest : Bool × List Char :=
    match s with
    | '+' :: r => (false, r)
    | '-' :: r => (true, r)
    | _ => (false, s)
  let lower := toLowerList signAndRest.2
  if lower = "inf".data ∨ lower = "infinity".data ∨ lower = "nan".data then none
  else
    match parseF64Body signAndRest.2 with
    | none => none
    | some q =>
        let v := if signAndRest.1 then -q else q
        if |v| ≤ maxF64Rat then some v else none

/-! ### JSON text parser (`serde_json::from_str::<Value>`)

Fuel-indexed recursive descent; the top-level entry supplies ample fuel
(every recursive step consumes input).  The model keeps an object's entries
in textual order (serde's map order and duplicate-key override are not
exercised by the properties below). -/

/-- JSON whitespace. -/
def isJsonWs (c : Char) : Bool :=
  c = ' ' || c = Char.ofNat 9 || c = Char.ofNat 10 || c = Char.ofNat 13

/-- Skip JSON whitespace. -/
def skipWs (s : List Char) : List Char := s.dropWhile isJsonWs

/-- Hex digit value. -/
def hexVal (c : Char) : Option Nat :=
  if '0' ≤ c ∧ c ≤ '9' then some (c.toNat - 48)
  else if 'a' ≤ c ∧ c ≤ 'f' then some (c.toNat - 87)
  else if 'A' ≤ c ∧ c ≤ 'F' then some (c.toNat - 55)
  else none

/-- Four hex digits. -/
def parseHex4 (s : List Char) : Option (Nat × List Char) :=
  match s with
  | a :: b :: c :: d :: rest =>
      match hexVal a, hexVal b, hexVal c, hexVal d with
      | some x, some y, some z, some w =>
          some (((x * 16 + y) * 16 + z) * 16 + w, rest)
      | _, _, _, _ => none
  | _ => none

/-- String body after the opening quote: plain characters, the JSON escapes,
`\uXXXX` with surrogate pairs; unescaped control characters and lone
surrogates are rejected. -/
def parseJsonStringAux : Nat → List Char → Option (List Char × List Char)
  | 0, _ => none
  | fuel + 1, s =>
    match s with
    | [] => none
    | '"' :: rest => some ([], rest)
    | '\\' :: esc :: rest =>
        let simpleEsc : Option Char :=
          if esc = '"' then some '"'
          else if esc = '\\' then some '\\'
          else if esc = '/' then some '/'
          else if esc = 'b' then some (Char.ofNat 8)
          else if esc = 'f' then some (Char.ofNat 12)
          else if esc = 'n' then some (Char.ofNat 10)
          else if esc = 'r' then some (Char.ofNat 13)
          else if esc = 't' then some (Char.ofNat 9)
          else none
        match simpleEsc with
        | some c =>
            match parseJsonStringAux fuel rest with
            | some (cs, rest1) => some (c :: cs, rest1)
            | none => none
        | none =>
            if esc = 'u' then
              match parseHex4 rest with
              | some (n, rest1) =>
                  if 0xD800 ≤ n ∧ n ≤ 0xDBFF then
                    match rest1 with
                    | '\\' :: 'u' :: rest2 =>
                        match parseHex4 rest2 with
                        | some (m, rest3) =>
                            if 0xDC00 ≤ m ∧ m ≤ 0xDFFF then
                              let cp := 0x10000 + (n - 0xD800) * 0x400 + (m - 0xDC00)
                              match parseJsonStringAux fuel rest3 with
                              | some (cs, rest4) =>
                                  some (Char.ofNat cp :: cs, rest4)
                              | none => none
                            else none
                        | none => none
                    | _ => none
                  else if 0xDC00 ≤ n ∧ n ≤ 0xDFFF then none
                  else
                    match parseJsonStringAux fuel rest1 with
                    | some (cs, rest2) => some (Char.ofNat n :: cs, rest2)
                    | none => none
              | none => none
            else none
    | c :: rest =>
        if c.toNat < 32 then none
        else
          match parseJsonStringAux fuel rest with
          | some (cs, rest1) => some (c :: cs, rest1)
          | none => none

/-- JSON number: `-? (0 | [1-9]digits) frac? exp?`.  A pure integer literal
in i64/u64 range becomes an integer number; anything else becomes a float
(rejected only on overflow past the largest finite f64, as serde errors
there). -/
def parseJsonNumber (s : List Char) : Option (Json × List Char) :=
  let negAndRest : Bool × List Char :=
    match s with
    | '-' :: r => (true, r)
    | _ => (false, s)
  match negAndRest.2 with
  | [] => none
  | c :: rest0 =>
      if ¬ c.isDigit then none
      else
        let intDigits : List Char :=
          if c = '0' then [c] else c :: rest0.takeWhile Char.isDigit
        let rest1 : List Char :=
          if c = '0' then rest0 else rest0.dropWhile Char.isDigit
        let fracAndRest : Option (List Char × List Char) :=
          match rest1 with
          | '.' :: r =>
              let ds := r.takeWhile Char.isDigit
              if ds.isEmpty then none else some (ds, r.dropWhile Char.isDigit)
          | _ => some ([], rest1)
        match fracAndRest with
        | none => none
        | some (fracDigits, rest2) =>
            let expAndRest : Option (Bool × Int × List Char) :=
              match rest2 with
              | e :: r =>
                  if e = 'e' ∨ e = 'E' then
                    let signAndDigits : Bool × List Char :=
                      match r with
                      | '+' :: r2 => (false, r2)
                      | '-' :: r2 => (true, r2)
                      | _ => (false, r)
                    let ds := signAndDigits.2.takeWhile Char.isDigit
                    if ds.isEmpty then none
                    else some (true,
                               (if signAndDigits.1 then -(digitsNat ds : Int)
                                else (digitsNat ds : Int)),
                               signAndDigits.2.dropWhile Char.isDigit)
                  else some (false, 0, rest2)
              | [] => some (false, 0, rest2)
            match expAndRest with
            | none => none
            | some (hasExp, e, rest3) =>
                if fracDigits.isEmpty && !hasExp then
                  let n : Int :=
                    if negAndRest.1 then -(digitsNat intDigits : Int)
                    else (digitsNat intDigits : Int)
                  if -(2 ^ 63) ≤ n ∧ n < 2 ^ 64 then some (.numI n, rest3)
                  else
                    if |(n : Rat)| ≤ maxF64Rat then some (.numF n, rest3)
                    else none
                else
                  let q := ratOfParts (digitsNat intDigits) fracDigits e
                  let v := if negAndRest.1 then -q else q
                  if |v| ≤ maxF64Rat then some (.numF v, rest3) else none

mutual

/-- One JSON value (fuel-indexed). -/
def parseJsonValue : Nat → List Char → Option (Json × List Char)
  | 0, _ => none
  | fuel + 1, s =>
      match skipWs s with
      | 'n' :: 'u' :: 'l' :: 'l' :: rest => some (.null, rest)
      | 't' :: 'r' :: 'u' :: 'e' :: rest => some (.bool true, rest)
      | 'f' :: 'a' :: 'l' :: 's' :: 'e' :: rest => some (.bool false, rest)
      | '"' :: rest =>
          match parseJsonStringAux rest.length rest with
          | some (cs, rest1) => some (.str (String.mk cs), rest1)
          | none => none
      | '[' :: rest => parseJsonArray fuel rest
      | '{' :: rest => parseJsonObject fuel rest
      | s1 => parseJsonNumber s1

/-- Array elements after `[`. -/
def parseJsonArray : Nat → List Char → Option (Json × List Char)
  | 0, _ => none
  | fuel + 1, s =>
      match skipWs s with
      | ']' :: rest => some (.arr [], rest)
      | s1 =>
          match parseJsonValue fuel s1 with
          | some (v, rest) =>
              match parseJsonArrayTail fuel rest with
              | some (vs, rest1) => some (.arr (v :: vs), rest1)
              | none => none
          | none => none

/-- `, value`* `]` after the first array element. -/
def parseJsonArrayTail : Nat → List Char → Option (List Json × List Char)
  | 0, _ => none
  | fuel + 1, s =>
      match skipWs s with
      | ',' :: rest =>
          match parseJsonValue fuel rest with
          | some (v, rest1) =>
              match parseJsonArrayTail fuel rest1 with
              | some (vs, rest2) => some (v :: vs, rest2)
              | none => none
          | none => none
      | ']' :: rest => some ([], rest)
      | _ => none

/-- Object members after `{`. -/
def parseJsonObject : Nat → List Char → Option (Json × List Char)
  | 0, _ => none
  | fuel + 1, s =>
      match skipWs s with
      | '}' :: rest => some (.obj [], rest)
      | s1 =>
          match parseJsonMember fuel s1 with
          | some (kv, rest) =>
              match parseJsonObjectTail fuel rest with
              | some (kvs, rest1) => some (.obj (kv :: kvs), rest1)
              | none => none
          | none => none

/-- One `"key": value` member. -/
def parseJsonMember : Nat → List Char → Option ((String × Json) × List Char)
  | 0, _ => none
  | fuel + 1, s =>
      match skipWs s with
      | '"' :: rest =>
          match parseJsonStringAux rest.length rest with
          | some (key, rest1) =>
              match skipWs rest1 with
              | ':' :: rest2 =>
                  match parseJsonValue fuel rest2 with
                  | some (v, rest3) => some ((String.mk key, v), rest3)
                  | none => none
              | _ => none
          | none => none
      | _ => none

/-- `, member`* `}` after the first object member. -/
def parseJsonObjectTail : Nat → List Char → Option (List (String × Json) × List Char)
  | 0, _ => none
  | fuel + 1, s =>
      match skipWs s with
      | ',' :: rest =>
          match parseJsonMember fuel rest with
          | some (kv, rest1) =>
              match parseJsonObjectTail fuel rest1 with
              | some (kvs, rest2) => some (kv :: kvs, rest2)
              | none => none
          | none => none
      | '}' :: rest => some ([], rest)
      | _ => none

end

/-- `serde_json::from_str::<Value>`: one value, then only trailing
whitespace. -/
def jsonParse (s : List Char) : Option Json :=
  match parseJsonValue (3 * s.length + 16) s with
  | some (v, rest) => if skipWs rest = [] then some v else none
  | none => none

/-! ### `GherkinService::parse_cell_value` (`src/services/gherkin.rs:141-170`) -/

/-- Fallback chain after the JSON attempt: integer, float, case-insensitive
boolean, else the original string. -/
def parseCellFallback (value : List Char) : Json :=
  match parseI64 value with
  | some n => .numI n
  | none =>
      match parseF64 value with
      | some q => .numF q
      | none =>
          if toLowerList value = "true".data then .bool true
          else if toLowerList value = "false".data then .bool false
          else .str (String.mk value)

/-- `GherkinService::parse_cell_value`: a value starting with `[`/`{` or
equal to `null` is tried as JSON first; then the fallback chain. -/
def parse_cell_value (value : List Char) : Json :=
  if value.head? = some '[' ∨ value.head? = some '{' ∨ value = "null".data then
    match jsonParse value with
    | some j => j
    | none => parseCellFallback value
  else parseCellFallback value

/-! ### `TestRunner::json_contains` (`src/services/test_runner.rs:408-427`) -/

mutual

/-- `TestRunner::json_contains`: recursive structural containment; the
final arm is `actual == expected`. -/
def json_contains : Json → Json → Bool
  | .obj actual_obj, .obj expected_obj =>
      json_contains_fields actual_obj expected_obj
  | .arr actual_arr, .arr expected_arr =>
      json_contains_elems actual_arr expected_arr
  | actual, expected => beqJson actual expected

/-- `expected_obj.iter().all(..)`: every expected key must exist in the
actual object with a recursively contained value. -/
def json_contains_fields (actual_obj : List (String × Json)) :
    List (String × Json) → Bool
  | [] => true
  | (key, expected_value) :: rest =>
      (match lookupField actual_obj key with
       | some actual_value => json_contains actual_value expected_value
       | none => false) && json_contains_fields actual_obj rest

/-- `expected_arr.iter().all(..)`: every expected element needs a match. -/
def json_contains_elems (actual_arr : List Json) : List Json → Bool
  | [] => true
  | expected_item :: rest =>
      json_contains_any actual_arr expected_item &&
        json_contains_elems actual_arr rest

/-- `actual_arr.iter().any(..)`: some actual element contains the expected
one. -/
def json_contains_any : List Json → Json → Bool
  | [], _ => false
  | actual_item :: rest, expected_item =>
      json_contains actual_item expected_item ||
        json_contains_any rest expected_item

end

/-! ### `TestRunner` context, substitution and validation
(`src/services/test_runner.rs`) -/

/-- `serde_json::Value::is_null`. -/
def isNullJson : Json → Bool
  | .null => true
  | _ => false

/-- A scalar JSON value (not an array, not an object); on these
`json_contains` degenerates to exact equality. -/
def jsonScalar : Json → Bool
  | .arr _ => false
  | .obj _ => false
  | _ => true

/-- `StepContext` (`src/services/test_runner.rs:43-54`). -/
structure StepContext where
  request_body : Option Json := none
  request_headers : List (String × String) := []
  query_params : List (String × String) := []
  path_params : List (String × String) := []
  expected_status : Option Int := none
  expected_body : Option Json := none
  expected_body_contains : List (List Char) := []
  setup_data : Option (List Json) := none

/-- The replacement text for one field value in
`TestRunner::substitute_placeholders`: strings verbatim, numbers and
booleans via `to_string`, arrays/objects as their JSON text. -/
def valueToReplacement : Json → List Char
  | .str s => s.data
  | .numI n => intToChars n
  | .numF q => ratToChars q
  | .bool b => (if b then "true" else "false").data
  | v => jsonToChars v

/-- `TestRunner::substitute_placeholders`
(`src/services/test_runner.rs:238-255`): for each field of the example
object, replace every `<key>` occurrence by the field's stringified value.
The fold order models the object's iteration order. -/
def substitute_placeholders (text : List Char) (example_data : Json) :
    List Char :=
  match example_data with
  | .obj fields =>
      fields.foldl
        (fun result kv =>
          replaceAll result ('<' :: kv.1.data ++ ['>']) (valueToReplacement kv.2))
        text
  | _ => text

/-- First `expected_body_contains` pattern missing from the body text, if
any (the source loop returns the error for the first miss). -/
def firstMissingPattern (bodyChars : List Char) :
    List (List Char) → Option (List Char)
  | [] => none
  | p :: rest =>
      if containsSub bodyChars p then firstMissingPattern bodyChars rest
      else some p

/-- Tail of `TestRunner::validate_response` after the status check: the
body-contains patterns, then the structural containment of the expected
body (skipped when it is null). -/
def validateAfterStatus (body : Json) (context : StepContext) :
    Except String Unit :=
  match firstMissingPattern (jsonToChars body) context.expected_body_contains with
  | some pattern =>
      .error ("Response body does not contain expected pattern: " ++
        String.mk pattern)
  | none =>
      match context.expected_body with
      | some expected_body =>
          if isNullJson expected_body then .ok ()
          else if json_contains body expected_body then .ok ()
          else
            .error ("Response body does not match expected. Expected: " ++
              String.mk (jsonToChars expected_body) ++ ", Got: " ++
              String.mk (jsonToChars body))
      | none => .ok ()

/-- `TestRunner::validate_response` (`src/services/test_runner.rs:365-405`):
the status check (an early return), then the body checks. -/
def validate_response (status : Int) (body : Json) (context : StepContext) :
    Except String Unit :=
  match context.expected_status with
  | some expected_status =>
      if status ≠ expected_status then
        .error ("Expected status " ++ toString expected_status ++ ", got " ++
          toString status)
      else validateAfterStatus body context
  | none => validateAfterStatus body context

/-! ### `TestRunner::run_example` outcome handling and the worker
(`src/services/test_runner.rs:104-162`, `src/worker/main.rs`) -/

/-- `TestResult` (`src/services/test_runner.rs:29-40`). -/
structure TestResult where
  scenario_id : Nat
  api_id : Nat
  example_index : Int
  pass : Bool
  error_message : Option String
  response_status : Int
  response_data : Option Json
  request_duration_ms : Int
  request_time : Nat

/-- `AppError` display strings (`src/error.rs`): note that
`Internal(msg)` displays as the fixed text "Internal server error",
dropping its payload. -/
def errToString : AppError → String
  | .notFound what => what ++ " not found"
  | .validation msg => "Validation error: " ++ msg
  | .internal _ => "Internal server error"

/-- `TestRunner::run_example`, given the outcome of `execute_request` (the
network being external input): on `Ok` the response is validated; on `Err`
the example is marked failed with the stringified error, status 0 and no
body. -/
def runExampleOutcome (scenario_id api_id : Nat) (example_index : Int)
    (context : StepContext) (duration : Int) (request_time : Nat)
    (result : Except AppError (Int × Json)) : TestResult :=
  match result with
  | .ok (status, body) =>
      let validation := validate_response status body context
      { scenario_id := scenario_id
        api_id := api_id
        example_index := example_index
        pass := match validation with | .ok () => true | .error _ => false
        error_message := match validation with
          | .ok () => none
          | .error e => some e
        response_status := status
        response_data := some body
        request_duration_ms := duration
        request_time := request_time }
  | .error e =>
      { scenario_id := scenario_id
        api_id := api_id
        example_index := example_index
        pass := false
        error_message := some (errToString e)
        response_status := 0
        response_data := none
        request_duration_ms := duration
        request_time := request_time }

/-- The example loop of `TestRunner::run_scenario`
(`src/services/test_runner.rs:91-100`): every example's result is collected;
per-example failures never become an `Err` of the loop. -/
def runScenarioOutcomes (scenario_id api_id : Nat)
    (outcomes : List (StepContext × Int × Nat × Except AppError (Int × Json))) :
    Except AppError (List TestResult) :=
  .ok ((outcomes.enum).map (fun oc =>
    runExampleOutcome scenario_id api_id (oc.1 : Int) oc.2.1 oc.2.2.1
      oc.2.2.2.1 oc.2.2.2.2))

/-- `is_retryable_error` (`src/worker/main.rs:145-170`), restricted to the
`AppError` constructors in the model. -/
def is_retryable_error : AppError → Bool
  | .internal msg =>
      containsSub msg.data "timeout".data ||
        containsSub msg.data "connection".data ||
        containsSub msg.data "network".data
  | .validation _ => false
  | .notFound _ => false

/-- The worker loop's handling of one executed job (`src/worker/main.rs`):
`Ok` results are completed, `Err`s are failed with the retryability
classification. -/
def workerHandleExecution (q : InMemoryQueueInner) (job_id : Nat)
    (execution : Except AppError JobResult) (now : Nat) :
    Except AppError InMemoryQueueInner :=
  match execution with
  | .ok result => InMemoryQueue.complete_job q job_id result now
  | .error e =>
      InMemoryQueue.fail_job q job_id (errToString e) (is_retryable_error e) now

section AssocLemmas

theorem lookupJob_setJob_self (jobs : List (Nat × TestJob)) (id : Nat)
    (j : TestJob) : lookupJob (setJob jobs id j) id = some j := by
  induction jobs with
  | nil => simp [setJob, lookupJob]
  | cons p rest ih =>
      obtain ⟨k, j0⟩ := p
      by_cases h : k = id <;> simp [setJob, lookupJob, h, ih]

theorem lookupJob_setJob_ne (jobs : List (Nat × TestJob)) (id id' : Nat)
    (j : TestJob) (h : id' ≠ id) :
    lookupJob (setJob jobs id j) id' = lookupJob jobs id' := by
  induction jobs with
  | nil => simp [setJob, lookupJob, Ne.symm h]
  | cons p rest ih =>
      obtain ⟨k, j0⟩ := p
      by_cases hk : k = id
      · have hk2 : k ≠ id' := by rw [hk]; exact Ne.symm h
        simp [setJob, lookupJob, hk, hk2, Ne.symm h]
      · by_cases hk' : k = id' <;>
          simp [setJob, lookupJob, hk, hk', ih, h, Ne.symm h]

theorem mem_setJob {jobs : List (Nat × TestJob)} {id : Nat} {j : TestJob}
    {p : Nat × TestJob} (h : p ∈ setJob jobs id j) :
    p = (id, j) ∨ p ∈ jobs := by
  induction jobs with
  | nil => simpa [setJob] using h
  | cons q rest ih =>
      obtain ⟨k, j0⟩ := q
      by_cases hk : k = id
      · subst hk
        rcases (by simpa [setJob] using h : p = (k, j) ∨ p ∈ rest) with h1 | h1
        · exact Or.inl h1
        · exact Or.inr (List.mem_cons_of_mem _ h1)
      · rcases (by simpa [setJob, hk] using h : p = (k, j0) ∨ p ∈ setJob rest id j)
          with h1 | h1
        · exact Or.inr (by simp [h1])
        · rcases ih h1 with h2 | h2
          · exact Or.inl h2
          · exact Or.inr (List.mem_cons_of_mem _ h2)

theorem lookupJob_mem {jobs : List (Nat × TestJob)} {id : Nat} {j : TestJob}
    (h : lookupJob jobs id = some j) : (id, j) ∈ jobs := by
  induction jobs with
  | nil => simp [lookupJob] at h
  | cons p rest ih =>
      obtain ⟨k, j0⟩ := p
      by_cases hk : k = id
      · subst hk
        simp [lookupJob] at h
        simp [h]
      · simp [lookupJob, hk] at h
        exact List.mem_cons_of_mem _ (ih h)

end AssocLemmas

section SortLemmas

open InMemoryQueue

theorem mem_insertByCreatedDesc {j k : TestJob} {l : List TestJob} :
    j ∈ insertByCreatedDesc k l ↔ j = k ∨ j ∈ l := by
  induction l with
  | nil => simp [insertByCreatedDesc]
  | cons a rest ih =>
      by_cases h : a.created_at ≤ k.created_at
      · simp [insertByCreatedDesc, h]
      · simp only [insertByCreatedDesc, if_neg h, List.mem_cons, ih]
        tauto

theorem mem_sortByCreatedDesc {j : TestJob} {l : List TestJob} :
    j ∈ sortByCreatedDesc l ↔ j ∈ l := by
  induction l with
  | nil => simp [sortByCreatedDesc]
  | cons a rest ih => simp [sortByCreatedDesc, mem_insertByCreatedDesc, ih]

theorem le_head_of_mem_sorted {c b : TestJob} {l : List TestJob}
    (h : SortedByCreatedDesc (c :: l)) (hb : b ∈ l) :
    b.created_at ≤ c.created_at := by
  induction l generalizing c with
  | nil => simp at hb
  | cons d tl ih =>
      have hdc : d.created_at ≤ c.created_at := (List.chain'_cons.mp h).1
      rcases List.mem_cons.mp hb with rfl | hb'
      · exact hdc
      · exact le_trans (ih ((List.chain'_cons.mp h).2) hb') hdc

theorem sortedByCreatedDesc_insert {k : TestJob} {l : List TestJob}
    (h : SortedByCreatedDesc l) :
    SortedByCreatedDesc (insertByCreatedDesc k l) := by
  induction l with
  | nil => simp [insertByCreatedDesc, SortedByCreatedDesc]
  | cons a rest ih =>
      by_cases hle : a.created_at ≤ k.created_at
      · simp only [insertByCreatedDesc, if_pos hle]
        exact List.Chain'.cons hle h
      · have hins := ih h.tail
        simp only [insertByCreatedDesc, if_neg hle]
        cases hrec : insertByCreatedDesc k rest with
        | nil => simp [SortedByCreatedDesc]
        | cons b tl =>
            refine List.Chain'.cons ?_ (hrec ▸ hins)
            have hb : b = k ∨ b ∈ rest :=
              mem_insertByCreatedDesc.mp (by simp [hrec])
            rcases hb with rfl | hbmem
            · exact le_of_not_le hle
            · exact le_head_of_mem_sorted h hbmem

theorem sortedByCreatedDesc_sort (l : List TestJob) :
    SortedByCreatedDesc (sortByCreatedDesc l) := by
  induction l with
  | nil => simp [sortByCreatedDesc, SortedByCreatedDesc]
  | cons a rest ih => exact sortedByCreatedDesc_insert ih

end SortLemmas

section RetryInvariant

theorem retryBoundedJobs_setJob {jobs : List (Nat × TestJob)}
    (h : RetryBoundedJobs jobs) {id : Nat} {j : TestJob}
    (hj : j.retry_count ≤ j.max_retries) :
    RetryBoundedJobs (setJob jobs id j) := by
  intro p hp
  rcases mem_setJob hp with rfl | hp'
  · exact hj
  · exact h p hp'

theorem retryBoundedJobs_lookup {jobs : List (Nat × TestJob)} {id : Nat}
    {j : TestJob} (h : RetryBoundedJobs jobs)
    (hl : lookupJob jobs id = some j) :
    j.retry_count ≤ j.max_retries :=
  h (id, j) (lookupJob_mem hl)

theorem retryBoundedJobs_applyOp {s : InMemoryQueueInner}
    (h : RetryBoundedJobs s.jobs) (op : QueueOp) :
    RetryBoundedJobs (applyOp s op).jobs := by
  cases op with
  | enqueue fid jt t e u cfg c =>
      exact retryBoundedJobs_setJob h (by simp [TestJob.new])
  | dequeue now =>
      simp only [applyOp, InMemoryQueue.dequeue]
      cases hq : s.queue with
      | nil => exact h
      | cons id rest =>
          cases hl : lookupJob s.jobs id with
          | none =>
              simp only [hl]
              exact h
          | some job =>
              simp only [hl]
              apply retryBoundedJobs_setJob h
              simpa using retryBoundedJobs_lookup h hl
  | update_status id st now =>
      simp only [applyOp, InMemoryQueue.update_status]
      cases hl : lookupJob s.jobs id with
      | none =>
          simp only [hl]
          exact h
      | some job =>
          simp only [hl]
          apply retryBoundedJobs_setJob h
          simpa using retryBoundedJobs_lookup h hl
  | complete_job id r now =>
      simp only [applyOp, InMemoryQueue.complete_job]
      cases hl : lookupJob s.jobs id with
      | none =>
          simp only [hl]
          exact h
      | some job =>
          simp only [hl]
          apply retryBoundedJobs_setJob h
          simpa using retryBoundedJobs_lookup h hl
  | fail_job id err retryable now =>
      simp only [applyOp, InMemoryQueue.fail_job]
      cases hl : lookupJob s.jobs id with
      | none =>
          simp only [hl]
          exact h
      | some job =>
          have hjob := retryBoundedJobs_lookup h hl
          by_cases hcond : (retryable &&
              decide (job.retry_count < job.max_retries)) = true
          · have hlt : job.retry_count < job.max_retries := by
              simp only [Bool.and_eq_true, decide_eq_true_eq] at hcond
              exact hcond.2
            simp only [hl, orUnchanged, hcond, if_true]
            apply retryBoundedJobs_setJob h
            simpa using hlt
          · simp only [hl, orUnchanged, hcond]
            apply retryBoundedJobs_setJob h
            simpa using hjob
  | requeue id =>
      simp only [applyOp, InMemoryQueue.requeue]
      cases hl : lookupJob s.jobs id with
      | none =>
          simp only [hl]
          exact h
      | some job =>
          simp only [hl]
          by_cases hst : job.status ≠ JobStatus.failed
          · simp only [orUnchanged, if_pos hst]
            exact h
          · simp only [orUnchanged, if_neg hst]
            apply retryBoundedJobs_setJob h
            simpa using retryBoundedJobs_lookup h hl
  | cancel_job id now =>
      simp only [applyOp, InMemoryQueue.cancel_job]
      cases hl : lookupJob s.jobs id with
      | none =>
          simp only [hl]
          exact h
      | some job =>
          simp only [hl]
          by_cases hst : job.status.is_terminal = true
          · simp only [orUnchanged, hst, if_true]
            exact h
          · simp only [orUnchanged, hst]
            apply retryBoundedJobs_setJob h
            simpa using retryBoundedJobs_lookup h hl
  | delete_job id =>
      simp only [applyOp, InMemoryQueue.delete_job]
      cases hl : lookupJob s.jobs id with
      | none =>
          simp only [hl]
          exact h
      | some job =>
          simp only [hl]
          simp only [orUnchanged]
          intro p hp
          exact h p (List.mem_of_mem_filter hp)

theorem retryBoundedJobs_runOps (ops : List QueueOp) :
    RetryBoundedJobs (runOps ops).jobs := by
  have key : ∀ (l : List QueueOp) (s : InMemoryQueueInner),
      RetryBoundedJobs s.jobs → RetryBoundedJobs (l.foldl applyOp s).jobs := by
    intro l
    induction l with
    | nil => intro s hs; exact hs
    | cons op rest ih =>
        intro s hs
        exact ih _ (retryBoundedJobs_applyOp hs op)
  exact key ops InMemoryQueue.new (by intro p hp; simp [InMemoryQueue.new] at hp)

end RetryInvariant

section ListLemmas

open InMemoryQueue

theorem length_insertByCreatedDesc (k : TestJob) (l : List TestJob) :
    (insertByCreatedDesc k l).length = l.length + 1 := by
  induction l with
  | nil => simp [insertByCreatedDesc]
  | cons a rest ih =>
      by_cases h : a.created_at ≤ k.created_at <;>
        simp [insertByCreatedDesc, h, ih]

theorem length_sortByCreatedDesc (l : List TestJob) :
    (sortByCreatedDesc l).length = l.length := by
  induction l with
  | nil => simp [sortByCreatedDesc]
  | cons a rest ih => simp [sortByCreatedDesc, length_insertByCreatedDesc, ih]

end ListLemmas

section SubstLemmas

theorem containsSub_cons_false {c : Char} {rest pat : List Char}
    (h : containsSub (c :: rest) pat = false) :
    pat.isPrefixOf (c :: rest) = false ∧ containsSub rest pat = false := by
  unfold containsSub at h
  by_cases hp : pat.isPrefixOf (c :: rest)
  · simp [hp] at h
  · simp only [hp] at h ⊢
    exact ⟨by simp [hp], by simpa using h⟩

theorem replaceAllAux_of_not_contains (pat repl : List Char) :
    ∀ (fuel : Nat) (s : List Char), containsSub s pat = false →
      replaceAllAux pat repl fuel s = s := by
  intro fuel
  induction fuel with
  | zero =>
      intro s _
      cases s <;> rfl
  | succ fuel ih =>
      intro s hs
      cases s with
      | nil => rfl
      | cons c rest =>
          obtain ⟨hpre, hrest⟩ := containsSub_cons_false hs
          unfold replaceAllAux
          rw [if_neg (by simp [hpre])]
          rw [ih rest hrest]

theorem replaceAll_of_not_contains (s pat repl : List Char)
    (h : containsSub s pat = false) : replaceAll s pat repl = s :=
  replaceAllAux_of_not_contains pat repl s.length s h

theorem subst_foldl_fixed (fields : List (String × Json)) (acc : List Char)
    (h : ∀ kv ∈ fields, containsSub acc ('<' :: kv.1.data ++ ['>']) = false) :
    fields.foldl
      (fun result kv =>
        replaceAll result ('<' :: kv.1.data ++ ['>']) (valueToReplacement kv.2))
      acc = acc := by
  induction fields with
  | nil => rfl
  | cons kv rest ih =>
      rw [List.foldl_cons,
        replaceAll_of_not_contains _ _ _ (h kv (List.mem_cons_self _ _))]
      exact ih (fun kv2 hm => h kv2 (List.mem_cons_of_mem _ hm))

end SubstLemmas

/-- C1: for every stored job, `fail_job(id, error, retryable)` with
`retryable = true` and `retry_count < max_retries` increments the retry
counter by one and sets the non-terminal status Failed; in every other case
(retryable with the budget exhausted, or not retryable) it sets Dead and
stamps `completed_at`; in both cases the given error string is recorded as
the job's error message.  Proved for the in-memory and the Redis backend. -/
theorem fail_job_retry_or_dead :
    (∀ (s : InMemoryQueueInner) (id : Nat) (job : TestJob) (err : String)
        (retryable : Bool) (now : Nat),
        InMemoryQueue.get_job s id = some job →
        (retryable = true → job.retry_count < job.max_retries →
          InMemoryQueue.fail_job s id err retryable now = .ok
            { s with jobs := setJob s.jobs id { job with
                error_message := some err
                retry_count := job.retry_count + 1
                status := JobStatus.failed } }) ∧
        ((retryable = false ∨ job.max_retries ≤ job.retry_count) →
          InMemoryQueue.fail_job s id err retryable now = .ok
            { s with jobs := setJob s.jobs id { job with
                error_message := some err
                status := JobStatus.dead
                completed_at := some now } })) ∧
    (∀ (r : RedisState) (id : Nat) (job : TestJob) (err : String)
        (retryable : Bool) (now : Nat),
        RedisQueue.get_job r id = some job →
        (retryable = true → job.retry_count < job.max_retries →
          RedisQueue.fail_job r id err retryable now = .ok
            (RedisQueue.save_job r { job with
                error_message := some err
                retry_count := job.retry_count + 1
                status := JobStatus.failed })) ∧
        ((retryable = false ∨ job.max_retries ≤ job.retry_count) →
          RedisQueue.fail_job r id err retryable now = .ok
            (RedisQueue.save_job r { job with
                error_message := some err
                status := JobStatus.dead
                completed_at := some now }))) ∧
    JobStatus.failed.is_terminal = false ∧
    JobStatus.dead.is_terminal = true := by
  refine ⟨?_, ?_, rfl, rfl⟩
  · intro s id job err retryable now h
    unfold InMemoryQueue.get_job at h
    constructor
    · intro hr hlt
      subst hr
      simp [InMemoryQueue.fail_job, h, hlt]
    · intro hcase
      rcases hcase with hr | hge
      · subst hr
        simp [InMemoryQueue.fail_job, h]
      · have hnlt : ¬ job.retry_count < job.max_retries := Nat.not_lt.mpr hge
        simp [InMemoryQueue.fail_job, h, hnlt]
  · intro r id job err retryable now h
    unfold RedisQueue.get_job at h
    constructor
    · intro hr hlt
      subst hr
      simp [RedisQueue.fail_job, RedisQueue.get_job, h, hlt]
    · intro hcase
      rcases hcase with hr | hge
      · subst hr
        simp [RedisQueue.fail_job, RedisQueue.get_job, h]
      · have hnlt : ¬ job.retry_count < job.max_retries := Nat.not_lt.mpr hge
        simp [RedisQueue.fail_job, RedisQueue.get_job, h, hnlt]

/-- Witness for C1 at a concrete stored job: one retryable failure below the
budget yields Failed with the counter bumped. -/
theorem fail_job_retry_or_dead_witness :
    InMemoryQueue.fail_job sampleMemState 7 "boom" true 5 = .ok
      { sampleMemState with jobs := setJob sampleMemState.jobs 7 { sampleJob with
          error_message := some "boom"
          retry_count := sampleJob.retry_count + 1
          status := JobStatus.failed } } :=
  (fail_job_retry_or_dead.1 sampleMemState 7 sampleJob "boom" true 5
    (by decide)).1 rfl (by decide)

/-- C2: along every sequence of queue operations on jobs created by
`TestJob::new`, `retry_count` never exceeds `max_retries`; and a retryable
failure reported when `retry_count` has reached `max_retries` yields Dead,
never another Failed. -/
theorem retry_count_le_max_retries :
    (∀ ops : List QueueOp, ∀ p ∈ (runOps ops).jobs,
        p.2.retry_count ≤ p.2.max_retries) ∧
    (∀ (s : InMemoryQueueInner) (id : Nat) (job : TestJob) (err : String)
        (now : Nat),
        InMemoryQueue.get_job s id = some job →
        job.retry_count = job.max_retries →
        InMemoryQueue.fail_job s id err true now = .ok
          { s with jobs := setJob s.jobs id { job with
              error_message := some err
              status := JobStatus.dead
              completed_at := some now } }) := by
  constructor
  · intro ops p hp
    exact retryBoundedJobs_runOps ops p hp
  · intro s id job err now h heq
    unfold InMemoryQueue.get_job at h
    have hnlt : ¬ job.retry_count < job.max_retries := by omega
    simp [InMemoryQueue.fail_job, h, hnlt]

/-- Witness for C2: the invariant at a concrete operation sequence, and a
concrete exhausted job going Dead on a retryable failure. -/
theorem retry_count_le_max_retries_witness :
    wC2Job.retry_count ≤ wC2Job.max_retries ∧
    InMemoryQueue.fail_job sampleExhaustedMemState 7 "late" true 9 = .ok
      { sampleExhaustedMemState with
          jobs := setJob sampleExhaustedMemState.jobs 7 { sampleExhaustedJob with
            error_message := some "late"
            status := JobStatus.dead
            completed_at := some 9 } } :=
  ⟨retry_count_le_max_retries.1 wC2Ops (7, wC2Job) (by decide),
   retry_count_le_max_retries.2 sampleExhaustedMemState 7 sampleExhaustedJob
     "late" 9 (by decide) (by decide)⟩

/-- C3 counterexample: on a job already in the terminal status Completed,
`update_status` does not fail with a validation error — it succeeds and
overwrites the status (here back to Running). -/
theorem update_status_on_terminal_succeeds_cex :
    (InMemoryQueue.get_job terminalMemState 7).map TestJob.status =
        some JobStatus.completed ∧
    JobStatus.completed.is_terminal = true ∧
    (InMemoryQueue.update_status terminalMemState 7 JobStatus.running 5).toOption.map
        (fun s' => (InMemoryQueue.get_job s' 7).map TestJob.status) =
      some (some JobStatus.running) := by decide

/-- C3 amended: from a terminal status, `cancel_job` and `requeue` fail with
a validation error (leaving the state unchanged, since they return before
mutating); but `update_status` (and likewise `complete_job` and `fail_job`)
performs no terminal-state check and succeeds, overwriting the job.  Proved
for both backends. -/
theorem terminal_state_guards :
    (∀ (s : InMemoryQueueInner) (id : Nat) (job : TestJob) (now : Nat),
        InMemoryQueue.get_job s id = some job → job.status.is_terminal = true →
        InMemoryQueue.cancel_job s id now =
          .error (.validation "Cannot cancel a completed job")) ∧
    (∀ (s : InMemoryQueueInner) (id : Nat) (job : TestJob),
        InMemoryQueue.get_job s id = some job → job.status.is_terminal = true →
        InMemoryQueue.requeue s id =
          .error (.validation "Only failed jobs can be requeued")) ∧
    (∀ (r : RedisState) (id : Nat) (job : TestJob) (now : Nat),
        RedisQueue.get_job r id = some job → job.status.is_terminal = true →
        RedisQueue.cancel_job r id now =
          .error (.validation "Cannot cancel a completed job")) ∧
    (∀ (r : RedisState) (id : Nat) (job : TestJob),
        RedisQueue.get_job r id = some job → job.status.is_terminal = true →
        RedisQueue.requeue r id =
          .error (.validation "Only failed jobs can be requeued")) ∧
    (∀ (s : InMemoryQueueInner) (id : Nat) (job : TestJob) (st : JobStatus)
        (now : Nat),
        InMemoryQueue.get_job s id = some job → job.status.is_terminal = true →
        InMemoryQueue.update_status s id st now = .ok
          { s with jobs := setJob s.jobs id { job with
              status := st
              completed_at :=
                if st.is_terminal then some now else job.completed_at } }) ∧
    (∀ (r : RedisState) (id : Nat) (job : TestJob) (st : JobStatus) (now : Nat),
        RedisQueue.get_job r id = some job → job.status.is_terminal = true →
        RedisQueue.update_status r id st now = .ok
          (RedisQueue.save_job r { job with
              status := st
              completed_at :=
                if st.is_terminal then some now else job.completed_at })) ∧
    (∀ (s : InMemoryQueueInner) (id : Nat) (job : TestJob) (err : String)
        (retryable : Bool) (now : Nat),
        InMemoryQueue.get_job s id = some job → job.status.is_terminal = true →
        ∃ s', InMemoryQueue.fail_job s id err retryable now = .ok s') ∧
    (∀ (s : InMemoryQueueInner) (id : Nat) (job : TestJob)
        (result : JobResult) (now : Nat),
        InMemoryQueue.get_job s id = some job → job.status.is_terminal = true →
        ∃ s', InMemoryQueue.complete_job s id result now = .ok s') := by
  have hne : ∀ j : TestJob, j.status.is_terminal = true →
      j.status ≠ JobStatus.failed := by
    intro j hterm
    cases hs : j.status <;> simp [hs, JobStatus.is_terminal] at hterm ⊢
  refine ⟨?_, ?_, ?_, ?_, ?_, ?_, ?_, ?_⟩
  · intro s id job now h hterm
    unfold InMemoryQueue.get_job at h
    simp [InMemoryQueue.cancel_job, h, hterm]
  · intro s id job h hterm
    unfold InMemoryQueue.get_job at h
    simp [InMemoryQueue.requeue, h, hne job hterm]
  · intro r id job now h hterm
    unfold RedisQueue.get_job at h
    simp [RedisQueue.cancel_job, RedisQueue.get_job, h, hterm]
  · intro r id job h hterm
    unfold RedisQueue.get_job at h
    simp [RedisQueue.requeue, RedisQueue.get_job, h, hne job hterm]
  · intro s id job st now h _hterm
    unfold InMemoryQueue.get_job at h
    simp [InMemoryQueue.update_status, h]
  · intro r id job st now h _hterm
    unfold RedisQueue.get_job at h
    simp [RedisQueue.update_status, RedisQueue.get_job, h]
  · intro s id job err retryable now h _hterm
    unfold InMemoryQueue.get_job at h
    unfold InMemoryQueue.fail_job
    rw [h]
    exact ⟨_, rfl⟩
  · intro s id job result now h _hterm
    unfold InMemoryQueue.get_job at h
    unfold InMemoryQueue.complete_job
    rw [h]
    exact ⟨_, rfl⟩

/-- Witness for the amended C3 at a concrete Completed job. -/
theorem terminal_state_guards_witness :
    InMemoryQueue.cancel_job terminalMemState 7 9 =
      .error (.validation "Cannot cancel a completed job") ∧
    RedisQueue.requeue terminalRedisState 7 =
      .error (.validation "Only failed jobs can be requeued") :=
  ⟨terminal_state_guards.1 terminalMemState 7 sampleCompletedJob 9
      (by decide) (by decide),
   (terminal_state_guards.2.2.2.1) terminalRedisState 7 sampleCompletedJob
      (by decide) (by decide)⟩

/-- C4: `requeue(id)` succeeds exactly when the stored job's status is
Failed; on success it resets the status to Pending, clears `started_at` and
the error message, and re-appends the id to the FIFO; on any other status it
fails with a validation error (changing nothing).  Both backends. -/
theorem requeue_only_from_failed :
    (∀ (s : InMemoryQueueInner) (id : Nat) (job : TestJob),
        InMemoryQueue.get_job s id = some job →
        (job.status = JobStatus.failed →
          InMemoryQueue.requeue s id = .ok
            { queue := s.queue ++ [id]
              jobs := setJob s.jobs id { job with
                status := JobStatus.pending
                started_at := none
                error_message := none } }) ∧
        (job.status ≠ JobStatus.failed →
          InMemoryQueue.requeue s id =
            .error (.validation "Only failed jobs can be requeued"))) ∧
    (∀ (r : RedisState) (id : Nat) (job : TestJob),
        RedisQueue.get_job r id = some job →
        (job.status = JobStatus.failed →
          RedisQueue.requeue r id = .ok
            { RedisQueue.save_job r { job with
                status := JobStatus.pending
                started_at := none
                error_message := none } with
              queue := r.queue ++ [id] }) ∧
        (job.status ≠ JobStatus.failed →
          RedisQueue.requeue r id =
            .error (.validation "Only failed jobs can be requeued"))) := by
  constructor
  · intro s id job h
    unfold InMemoryQueue.get_job at h
    constructor
    · intro hst
      simp [InMemoryQueue.requeue, h, hst]
    · intro hst
      simp [InMemoryQueue.requeue, h, hst]
  · intro r id job h
    unfold RedisQueue.get_job at h
    constructor
    · intro hst
      simp [RedisQueue.requeue, RedisQueue.get_job, RedisQueue.save_job, h, hst]
    · intro hst
      simp [RedisQueue.requeue, RedisQueue.get_job, h, hst]

/-- Witness for C4: a concrete Failed job is requeued; a concrete Pending
job is rejected. -/
theorem requeue_only_from_failed_witness :
    InMemoryQueue.requeue sampleFailedMemState 7 = .ok
      { queue := sampleFailedMemState.queue ++ [7]
        jobs := setJob sampleFailedMemState.jobs 7 { sampleFailedJob with
          status := JobStatus.pending
          started_at := none
          error_message := none } } ∧
    InMemoryQueue.requeue sampleMemState 7 =
      .error (.validation "Only failed jobs can be requeued") :=
  ⟨(requeue_only_from_failed.1 sampleFailedMemState 7 sampleFailedJob
      (by decide)).1 (by decide),
   (requeue_only_from_failed.1 sampleMemState 7 sampleJob
      (by decide)).2 (by decide)⟩

/-- C10: a successful requeue modifies only `status`, `started_at` and
`error_message` (plus re-appending the id to the FIFO); every other field of
the job, and every other job in the table, is unchanged.  For the Redis
backend this holds for a well-formed record (one stored under its own id). -/
theorem requeue_frame :
    (∀ (s : InMemoryQueueInner) (id : Nat) (job : TestJob),
        InMemoryQueue.get_job s id = some job → job.status = JobStatus.failed →
        ∃ s' job', InMemoryQueue.requeue s id = .ok s' ∧
          s'.queue = s.queue ++ [id] ∧
          InMemoryQueue.get_job s' id = some job' ∧
          job'.status = JobStatus.pending ∧ job'.started_at = none ∧
          job'.error_message = none ∧
          job'.id = job.id ∧ job'.job_type = job.job_type ∧
          job'.target_id = job.target_id ∧
          job'.environment_id = job.environment_id ∧
          job'.user_id = job.user_id ∧ job'.config = job.config ∧
          job'.retry_count = job.retry_count ∧
          job'.max_retries = job.max_retries ∧
          job'.created_at = job.created_at ∧
          job'.completed_at = job.completed_at ∧
          job'.report_id = job.report_id ∧
          (∀ id', id' ≠ id →
            InMemoryQueue.get_job s' id' = InMemoryQueue.get_job s id')) ∧
    (∀ (r : RedisState) (id : Nat) (job : TestJob),
        RedisQueue.get_job r id = some job → job.status = JobStatus.failed →
        job.id = id →
        ∃ r' job', RedisQueue.requeue r id = .ok r' ∧
          r'.queue = r.queue ++ [id] ∧ r'.by_user = r.by_user ∧
          RedisQueue.get_job r' id = some job' ∧
          job'.status = JobStatus.pending ∧ job'.started_at = none ∧
          job'.error_message = none ∧
          job'.id = job.id ∧ job'.job_type = job.job_type ∧
          job'.target_id = job.target_id ∧
          job'.environment_id = job.environment_id ∧
          job'.user_id = job.user_id ∧ job'.config = job.config ∧
          job'.retry_count = job.retry_count ∧
          job'.max_retries = job.max_retries ∧
          job'.created_at = job.created_at ∧
          job'.completed_at = job.completed_at ∧
          job'.report_id = job.report_id ∧
          (∀ id', id' ≠ id →
            RedisQueue.get_job r' id' = RedisQueue.get_job r id')) := by
  constructor
  · intro s id job h hst
    unfold InMemoryQueue.get_job at h
    refine ⟨{ queue := s.queue ++ [id]
              jobs := setJob s.jobs id { job with
                status := JobStatus.pending
                started_at := none
                error_message := none } },
        { job with
            status := JobStatus.pending
            started_at := none
            error_message := none },
        ?_, rfl, ?_, rfl, rfl, rfl, rfl, rfl, rfl, rfl, rfl, rfl, rfl, rfl,
        rfl, rfl, rfl, ?_⟩
    · simp [InMemoryQueue.requeue, h, hst]
    · exact lookupJob_setJob_self s.jobs id _
    · intro id' hne
      exact lookupJob_setJob_ne s.jobs id id' _ hne
  · intro r id job h hst hid
    unfold RedisQueue.get_job at h
    refine ⟨{ queue := r.queue ++ [id]
              jobs := setJob r.jobs id { job with
                status := JobStatus.pending
                started_at := none
                error_message := none }
              by_user := r.by_user },
        { job with
            status := JobStatus.pending
            started_at := none
            error_message := none },
        ?_, rfl, rfl, ?_, rfl, rfl, rfl, rfl, rfl, rfl, rfl, rfl, rfl, rfl,
        rfl, rfl, rfl, rfl, ?_⟩
    · simp [RedisQueue.requeue, RedisQueue.get_job, RedisQueue.save_job, h,
        hst, hid]
    · exact lookupJob_setJob_self r.jobs id _
    · intro id' hne
      exact lookupJob_setJob_ne r.jobs id id' _ hne

/-- Witness for C10 at a concrete Failed job. -/
theorem requeue_frame_witness :
    ∃ s' job', InMemoryQueue.requeue sampleFailedMemState 7 = .ok s' ∧
      s'.queue = sampleFailedMemState.queue ++ [7] ∧
      InMemoryQueue.get_job s' 7 = some job' ∧
      job'.status = JobStatus.pending ∧ job'.started_at = none ∧
      job'.error_message = none ∧
      job'.id = sampleFailedJob.id ∧ job'.job_type = sampleFailedJob.job_type ∧
      job'.target_id = sampleFailedJob.target_id ∧
      job'.environment_id = sampleFailedJob.environment_id ∧
      job'.user_id = sampleFailedJob.user_id ∧
      job'.config = sampleFailedJob.config ∧
      job'.retry_count = sampleFailedJob.retry_count ∧
      job'.max_retries = sampleFailedJob.max_retries ∧
      job'.created_at = sampleFailedJob.created_at ∧
      job'.completed_at = sampleFailedJob.completed_at ∧
      job'.report_id = sampleFailedJob.report_id ∧
      (∀ id', id' ≠ 7 →
        InMemoryQueue.get_job s' id' =
          InMemoryQueue.get_job sampleFailedMemState id') :=
  requeue_frame.1 sampleFailedMemState 7 sampleFailedJob (by decide) (by decide)

/-- C9 counterexample: the two backends disagree on the same stored job set.
User 1 owns an older and a newer job; with `limit = 1` the in-memory backend
returns the newest job (sort first, then limit) while the Redis backend
returns the older one (limit applied to the id set before sorting). -/
theorem list_jobs_by_user_backends_disagree_cex :
    cexRedisState.jobs = cexMemState.jobs ∧
    InMemoryQueue.list_jobs_by_user cexMemState 1 1 = [cexJobNew] ∧
    RedisQueue.list_jobs_by_user cexRedisState 1 1 = [cexJobOld] ∧
    cexJobNew ≠ cexJobOld := by decide

/-- C9 amended: both backends return jobs sorted by creation time
descending, at most `limit` of them, and only jobs owned by the requested
user (for Redis under well-formedness of its per-user id index); but the
in-memory backend applies the limit to the sorted order while the Redis
backend applies it to the user's id set in its unspecified order before
sorting, so the two can return different jobs for the same stored set. -/
theorem list_jobs_by_user_properties :
    (∀ (s : InMemoryQueueInner) (uid limit : Nat) (j : TestJob),
        j ∈ InMemoryQueue.list_jobs_by_user s uid limit → j.user_id = uid) ∧
    (∀ (s : InMemoryQueueInner) (uid limit : Nat),
        SortedByCreatedDesc (InMemoryQueue.list_jobs_by_user s uid limit)) ∧
    (∀ (s : InMemoryQueueInner) (uid limit : Nat),
        (InMemoryQueue.list_jobs_by_user s uid limit).length ≤ limit) ∧
    (∀ (r : RedisState) (uid limit : Nat),
        SortedByCreatedDesc (RedisQueue.list_jobs_by_user r uid limit)) ∧
    (∀ (r : RedisState) (uid limit : Nat),
        (RedisQueue.list_jobs_by_user r uid limit).length ≤ limit) ∧
    (∀ (r : RedisState) (uid limit : Nat) (j : TestJob),
        (∀ i ∈ lookupUserSet r.by_user uid, ∀ jj,
            RedisQueue.get_job r i = some jj → jj.user_id = uid) →
        j ∈ RedisQueue.list_jobs_by_user r uid limit → j.user_id = uid) := by
  refine ⟨?_, ?_, ?_, ?_, ?_, ?_⟩
  · intro s uid limit j hj
    have h1 : j ∈ InMemoryQueue.sortByCreatedDesc
        ((s.jobs.map Prod.snd).filter (fun j => decide (j.user_id = uid))) :=
      List.mem_of_mem_take hj
    have h2 := mem_sortByCreatedDesc.mp h1
    have h3 := List.of_mem_filter h2
    exact of_decide_eq_true h3
  · intro s uid limit
    exact (sortedByCreatedDesc_sort _).take limit
  · intro s uid limit
    unfold InMemoryQueue.list_jobs_by_user
    rw [List.length_take]
    exact min_le_left _ _
  · intro r uid limit
    exact sortedByCreatedDesc_sort _
  · intro r uid limit
    unfold RedisQueue.list_jobs_by_user
    rw [length_sortByCreatedDesc]
    calc (((lookupUserSet r.by_user uid).take limit).filterMap
            (fun id => RedisQueue.get_job r id)).length
        ≤ ((lookupUserSet r.by_user uid).take limit).length :=
          List.length_filterMap_le _ _
      _ ≤ limit := by
          rw [List.length_take]
          exact min_le_left _ _
  · intro r uid limit j hwf hj
    have h1 : j ∈ ((lookupUserSet r.by_user uid).take limit).filterMap
        (fun id => RedisQueue.get_job r id) := mem_sortByCreatedDesc.mp hj
    obtain ⟨i, hi, hget⟩ := List.mem_filterMap.mp h1
    exact hwf i (List.mem_of_mem_take hi) j hget

/-- Witness for the amended C9 at the concrete disagreeing states. -/
theorem list_jobs_by_user_properties_witness :
    cexJobNew.user_id = 1 ∧
    SortedByCreatedDesc (RedisQueue.list_jobs_by_user cexRedisState 1 1) :=
  ⟨list_jobs_by_user_properties.1 cexMemState 1 1 cexJobNew (by decide),
   list_jobs_by_user_properties.2.2.2.1 cexRedisState 1 1⟩

/-- C7 counterexample: substitution is not idempotent in general.  With
example `{a: "x", b: "<a>"}` (fields in the map's key order) the text `<b>`
substitutes once to `<a>`, but substituting twice yields `x`: the second
pass expands the placeholder re-introduced by the first. -/
theorem substitution_not_idempotent_cex :
    substitute_placeholders "<b>".data
        (.obj [("a", .str "x"), ("b", .str "<a>")]) = "<a>".data ∧
    substitute_placeholders
        (substitute_placeholders "<b>".data
          (.obj [("a", .str "x"), ("b", .str "<a>")]))
        (.obj [("a", .str "x"), ("b", .str "<a>")]) = "x".data ∧
    "<a>".data ≠ "x".data := by decide

/-- C7 amended: placeholder substitution is idempotent whenever the
once-substituted text retains no `<key>` token of any field of the example
(in particular whenever no field value re-introduces one); a second
application can differ otherwise. -/
theorem substitution_idempotent_no_residual :
    ∀ (text : List Char) (fields : List (String × Json)),
      (∀ kv ∈ fields,
        containsSub (substitute_placeholders text (.obj fields))
          ('<' :: kv.1.data ++ ['>']) = false) →
      substitute_placeholders (substitute_placeholders text (.obj fields))
          (.obj fields) =
        substitute_placeholders text (.obj fields) := by
  intro text fields h
  show fields.foldl _ (substitute_placeholders text (.obj fields)) = _
  exact subst_foldl_fixed fields _ h

/-- Witness for the amended C7: a substitution that leaves no placeholder
behind is idempotent at a concrete input. -/
theorem substitution_idempotent_no_residual_witness :
    substitute_placeholders
        (substitute_placeholders "hello <name>".data
          (.obj [("name", .str "world")]))
        (.obj [("name", .str "world")]) =
      substitute_placeholders "hello <name>".data
        (.obj [("name", .str "world")]) :=
  substitution_idempotent_no_residual "hello <name>".data
    [("name", .str "world")] (by decide)

section ContainmentLemmas

theorem json_contains_obj_eq (aF eF : List (String × Json)) :
    json_contains (.obj aF) (.obj eF) = json_contains_fields aF eF := by
  simp [json_contains]

theorem json_contains_arr_eq (aA eA : List Json) :
    json_contains (.arr aA) (.arr eA) = json_contains_elems aA eA := by
  simp [json_contains]

theorem json_contains_fields_cons (aF : List (String × Json)) (k : String)
    (ev : Json) (rest : List (String × Json)) :
    json_contains_fields aF ((k, ev) :: rest) =
      ((match lookupField aF k with
        | some av => json_contains av ev
        | none => false) && json_contains_fields aF rest) := by
  simp [json_contains_fields]

theorem json_contains_fields_iff (aF eF : List (String × Json)) :
    json_contains_fields aF eF = true ↔
      ∀ kv ∈ eF, ∃ av, lookupField aF kv.1 = some av ∧
        json_contains av kv.2 = true := by
  induction eF with
  | nil => simp [json_contains_fields]
  | cons kv rest ih =>
      obtain ⟨k, ev⟩ := kv
      rw [json_contains_fields_cons, Bool.and_eq_true, ih]
      cases h : lookupField aF k with
      | none => simp [h]
      | some av => simp [h]

theorem json_contains_any_iff (aA : List Json) (ev : Json) :
    json_contains_any aA ev = true ↔ ∃ av ∈ aA, json_contains av ev = true := by
  induction aA with
  | nil => simp [json_contains_any]
  | cons av rest ih =>
      have : json_contains_any (av :: rest) ev =
          (json_contains av ev || json_contains_any rest ev) := by
        simp [json_contains_any]
      rw [this, Bool.or_eq_true, ih]
      simp

theorem json_contains_elems_iff (aA eA : List Json) :
    json_contains_elems aA eA = true ↔
      ∀ ev ∈ eA, ∃ av ∈ aA, json_contains av ev = true := by
  induction eA with
  | nil => simp [json_contains_elems]
  | cons ev rest ih =>
      have : json_contains_elems aA (ev :: rest) =
          (json_contains_any aA ev && json_contains_elems aA rest) := by
        simp [json_contains_elems]
      rw [this, Bool.and_eq_true, ih, json_contains_any_iff]
      simp

theorem json_contains_scalar_eq (a e : Json) (h : jsonScalar e = true) :
    json_contains a e = beqJson a e := by
  cases e <;> simp [jsonScalar] at h <;> cases a <;> simp [json_contains]

theorem beqJson_scalar_iff (a e : Json) (h : jsonScalar e = true) :
    beqJson a e = true ↔ a = e := by
  cases e <;> simp [jsonScalar] at h <;> cases a <;> simp [beqJson]

end ContainmentLemmas

/-- C5: with a non-null expected body set, response validation passes only
if the actual body structurally contains the expected one; containment is:
every expected object key exists in the actual object with a recursively
contained value, every expected array element has a containing match in the
actual array, and scalars are exactly equal.  The claim's two concrete
instances are included. -/
theorem validate_requires_containment :
    (∀ (status : Int) (body : Json) (ctx : StepContext) (e : Json),
        ctx.expected_body = some e → isNullJson e = false →
        validate_response status body ctx = .ok () →
        json_contains body e = true) ∧
    (∀ aF eF, json_contains (.obj aF) (.obj eF) = true ↔
        ∀ kv ∈ eF, ∃ av, lookupField aF kv.1 = some av ∧
          json_contains av kv.2 = true) ∧
    (∀ aA eA, json_contains (.arr aA) (.arr eA) = true ↔
        ∀ ev ∈ eA, ∃ av ∈ aA, json_contains av ev = true) ∧
    (∀ a e, jsonScalar e = true → (json_contains a e = true ↔ a = e)) ∧
    json_contains
      (.obj [("id", .numI 1), ("name", .str "t"), ("extra", .str "x")])
      (.obj [("id", .numI 1), ("name", .str "t")]) = true ∧
    json_contains
      (.obj [("id", .numI 1), ("name", .str "t"), ("extra", .str "x")])
      (.obj [("id", .numI 2)]) = false := by
  refine ⟨?_, ?_, ?_, ?_, ?_, ?_⟩
  · intro status body ctx e he hnull hok
    have htail : validateAfterStatus body ctx = .ok () := by
      unfold validate_response at hok
      cases hst : ctx.expected_status with
      | none =>
          simp only [hst] at hok
          exact hok
      | some expected =>
          simp only [hst] at hok
          by_cases hs : status ≠ expected
          · rw [if_pos hs] at hok
            exact absurd hok (by simp)
          · rw [if_neg hs] at hok
            exact hok
    unfold validateAfterStatus at htail
    cases hfm : firstMissingPattern (jsonToChars body) ctx.expected_body_contains with
    | some p =>
        simp only [hfm] at htail
        exact absurd htail (by simp)
    | none =>
        simp only [hfm, he] at htail
        rw [if_neg (by simp [hnull])] at htail
        by_cases hc : json_contains body e = true
        · exact hc
        · rw [if_neg (by simpa using hc)] at htail
          exact absurd htail (by simp)
  · intro aF eF
    rw [json_contains_obj_eq]
    exact json_contains_fields_iff aF eF
  · intro aA eA
    rw [json_contains_arr_eq]
    exact json_contains_elems_iff aA eA
  · intro a e h
    rw [json_contains_scalar_eq a e h]
    exact beqJson_scalar_iff a e h
  · simp [json_contains, json_contains_fields, lookupField, beqJson]
  · simp [json_contains, json_contains_fields, lookupField, beqJson]

/-- Witness for C5: a concrete passing validation whose body contains the
expected object, and a concrete scalar case. -/
theorem validate_requires_containment_witness :
    json_contains (.obj [("id", .numI 1), ("extra", .str "x")])
      (.obj [("id", .numI 1)]) = true ∧
    (json_contains (.numI 5) (.numI 5) = true ↔ (Json.numI 5 = Json.numI 5)) :=
  ⟨validate_requires_containment.1 200
      (.obj [("id", .numI 1), ("extra", .str "x")])
      { expected_status := some 200
        expected_body := some (.obj [("id", .numI 1)]) }
      (.obj [("id", .numI 1)]) rfl (by decide)
      (by simp [validate_response, validateAfterStatus, firstMissingPattern,
        json_contains, json_contains_fields, lookupField, beqJson, isNullJson]),
   validate_requires_containment.2.2.2.1 (.numI 5) (.numI 5) (by decide)⟩

/-- C6: typed cell inference dispatches exactly as specified: a value
starting with `[`/`{` or equal to `null` takes its JSON parse when that
succeeds; otherwise integer, then float, then case-insensitive boolean,
else the original string — with the claim's seven concrete instances. -/
theorem cell_value_inference :
    (∀ (v : List Char) (j : Json),
        (v.head? = some '[' ∨ v.head? = some '{' ∨ v = "null".data) →
        jsonParse v = some j → parse_cell_value v = j) ∧
    (∀ v : List Char,
        ¬ (v.head? = some '[' ∨ v.head? = some '{' ∨ v = "null".data) →
        parse_cell_value v = parseCellFallback v) ∧
    (∀ v : List Char, jsonParse v = none →
        parse_cell_value v = parseCellFallback v) ∧
    (∀ (v : List Char) (n : Int), parseI64 v = some n →
        parseCellFallback v = .numI n) ∧
    (∀ (v : List Char) (q : Rat), parseI64 v = none → parseF64 v = some q →
        parseCellFallback v = .numF q) ∧
    (∀ v : List Char, parseI64 v = none → parseF64 v = none →
        toLowerList v = "true".data → parseCellFallback v = .bool true) ∧
    (∀ v : List Char, parseI64 v = none → parseF64 v = none →
        toLowerList v = "false".data → parseCellFallback v = .bool false) ∧
    (∀ v : List Char, parseI64 v = none → parseF64 v = none →
        toLowerList v ≠ "true".data → toLowerList v ≠ "false".data →
        parseCellFallback v = .str (String.mk v)) ∧
    parse_cell_value "42".data = .numI 42 ∧
    parse_cell_value "3.14".data = .numF (157 / 50 : Rat) ∧
    parse_cell_value "true".data = .bool true ∧
    parse_cell_value "FALSE".data = .bool false ∧
    parse_cell_value "null".data = .null ∧
    parse_cell_value "[1,2,3]".data = .arr [.numI 1, .numI 2, .numI 3] ∧
    parse_cell_value "hello".data = .str "hello" := by
  refine ⟨?_, ?_, ?_, ?_, ?_, ?_, ?_, ?_, rfl, ?_, rfl, rfl, rfl, rfl, rfl⟩
  · intro v j htrig hparse
    simp [parse_cell_value, htrig, hparse]
  · intro v htrig
    simp [parse_cell_value, htrig]
  · intro v hparse
    by_cases htrig :
        v.head? = some '[' ∨ v.head? = some '{' ∨ v = "null".data
    · simp [parse_cell_value, htrig, hparse]
    · simp [parse_cell_value, htrig]
  · intro v n h
    simp [parseCellFallback, h]
  · intro v q h1 h2
    simp [parseCellFallback, h1, h2]
  · intro v h1 h2 h3
    simp [parseCellFallback, h1, h2, h3]
  · intro v h1 h2 h3
    simp [parseCellFallback, h1, h2, h3]
  · intro v h1 h2 h3 h4
    simp [parseCellFallback, h1, h2, h3, h4]
  · have h1 : parseI64 "3.14".data = none := rfl
    have h4 : digitsNat ['1', '4'] = 14 := rfl
    have h3 : ratOfParts 3 ['1', '4'] 0 = 157 / 50 := by
      simp [ratOfParts, h4]
      norm_num
    have h2 : parseF64Body "3.14".data = some (ratOfParts 3 ['1', '4'] 0) := rfl
    simp [parse_cell_value, parseCellFallback, h1, parseF64, toLowerList, h2, h3]
    rw [if_pos (by rw [abs_le]; constructor <;> norm_num [maxF64Rat])]

/-- Witness for C6's dispatch at a concrete JSON-triggering cell. -/
theorem cell_value_inference_witness :
    parse_cell_value "[7]".data = .arr [.numI 7] :=
  cell_value_inference.1 "[7]".data (.arr [.numI 7]) (by decide) rfl

/-- C8 counterexample: the failed example's recorded message for a
transport failure is the fixed display string "Internal server error" —
`AppError::Internal`'s `Display` drops its payload — not the transport
error detail. -/
theorem transport_error_message_cex :
    (runExampleOutcome 1 2 0 {} 5 0
        (.error (.internal "HTTP request failed: connection refused"))).error_message
      = some "Internal server error" ∧
    (runExampleOutcome 1 2 0 {} 5 0
        (.error (.internal "HTTP request failed: connection refused"))).error_message
      ≠ some "HTTP request failed: connection refused" ∧
    containsSub "Internal server error".data "connection refused".data = false := by
  refine ⟨rfl, ?_, by decide⟩
  intro h
  simp [runExampleOutcome, errToString] at h

/-- C8 amended: a transport-level failure marks the example failed with
observed status 0, no response body, and the stringified error as message
(for transport failures the fixed string "Internal server error", the
transport detail being dropped by the error display); the scenario loop
still returns `Ok` with one result per example, and a job whose execution
returned `Ok` is completed. -/
theorem transport_failure_per_example :
    (∀ (sid aid : Nat) (idx : Int) (ctx : StepContext) (dur : Int) (t : Nat)
        (e : AppError),
        runExampleOutcome sid aid idx ctx dur t (.error e) =
          { scenario_id := sid
            api_id := aid
            example_index := idx
            pass := false
            error_message := some (errToString e)
            response_status := 0
            response_data := none
            request_duration_ms := dur
            request_time := t }) ∧
    (∀ (sid aid : Nat)
        (outcomes : List (StepContext × Int × Nat × Except AppError (Int × Json))),
        ∃ results, runScenarioOutcomes sid aid outcomes = .ok results ∧
          results.length = outcomes.length) ∧
    (∀ (q : InMemoryQueueInner) (id : Nat) (job : TestJob)
        (result : JobResult) (now : Nat),
        InMemoryQueue.get_job q id = some job →
        workerHandleExecution q id (.ok result) now = .ok
          { q with jobs := setJob q.jobs id { job with
              status := JobStatus.completed
              completed_at := some now
              report_id := some result.report_id } } ∧
        JobStatus.completed.is_terminal = true) := by
  refine ⟨?_, ?_, ?_⟩
  · intro sid aid idx ctx dur t e
    rfl
  · intro sid aid outcomes
    exact ⟨_, rfl, by simp [runScenarioOutcomes]⟩
  · intro q id job result now h
    unfold InMemoryQueue.get_job at h
    exact ⟨by simp [workerHandleExecution, InMemoryQueue.complete_job, h], rfl⟩

/-- Witness for the amended C8: a concrete transport failure and a concrete
completed job. -/
theorem transport_failure_per_example_witness :
    runExampleOutcome 1 2 0 {} 5 0 (.error (.internal "HTTP request failed: timed out")) =
      { scenario_id := 1
        api_id := 2
        example_index := 0
        pass := false
        error_message := some (errToString (.internal "HTTP request failed: timed out"))
        response_status := 0
        response_data := none
        request_duration_ms := 5
        request_time := 0 } ∧
    workerHandleExecution sampleMemState 7
        (.ok { report_id := 11, total_tests := 1, passed := 0, failed := 1,
               pass_rate := 0, total_duration_ms := 3 }) 9 = .ok
      { sampleMemState with jobs := setJob sampleMemState.jobs 7 { sampleJob with
          status := JobStatus.completed
          completed_at := some 9
          report_id := some 11 } } :=
  ⟨transport_failure_per_example.1 1 2 0 {} 5 0
      (.internal "HTTP request failed: timed out"),
   (transport_failure_per_example.2.2 sampleMemState 7 sampleJob
      { report_id := 11, total_tests := 1, passed := 0, failed := 1,
        pass_rate := 0, total_duration_ms := 3 } 9 (by decide)).1⟩

end ServalRun